import Mathlib

/-!
# The single-file configuration watcher (`config/watcher/file.go`)

`File.Watch` resolves the watched path, subscribes to its parent directory and
then loops over a three-way `select`: notifier events, notifier errors and the
context's cancellation signal.

The embedding is an explicit-state one.  Everything `Watch` obtains from the
outside world is an input of the model:

* the outcomes of the three setup calls (`Setup`);
* the sequence of `select` cases taken by the loop (`Recv`), where an event
  delivery carries the two clock readings of lines 64 and 68 and the values
  that `filepath.EvalSymlinks` (line 85) and `reload` (line 97) return if the
  iteration gets as far as calling them.

The library functions `filepath.Clean`, `filepath.Split` and
`fsnotify.Event.String` are parameters (`Env`).  A `Run` records the local
variables of the loop, the value returned, and the observable calls made
(reloads, successful resolutions, `w.Add`, `w.Close`).
-/

namespace Watcher

/-! ## Go values -/

/-- A non-nil Go error value. -/
inductive Err where
  /-- An error value made by a collaborator (file system, notifier, reload callback). -/
  | foreign (tag : String)
  /-- The value of `errors.New(msg)`. -/
  | new (msg : String)
  /-- The value of `fmt.Errorf(...)`, with the formatted message. -/
  | errorf (msg : String)
  /-- The value of `errors.Wrap(cause, msg)` for a non-nil `cause`. -/
  | wrap (cause : Err) (msg : String)
  deriving DecidableEq, Repr

/-- A value of the Go interface type `error`: `none` is `nil`. -/
abbrev GoError := Option Err

namespace time

/-- The constant `time.Millisecond`, a `Duration` in nanoseconds. -/
def Millisecond : Int := 1000000

/-- The largest `Duration` (`1<<63 - 1`). -/
def maxDuration : Int := 2 ^ 63 - 1

/-- The smallest `Duration` (`-1 << 63`). -/
def minDuration : Int := -(2 ^ 63)

/-- The method `Time.Sub`: the difference of two instants (nanoseconds on one time line),
saturated to the range of `Duration`. -/
def Sub (t u : Int) : Int :=
  if t - u < minDuration then minDuration
  else if maxDuration < t - u then maxDuration
  else t - u

/-- The function `time.Since(t)`, given the clock reading `now` it takes. -/
def Since (now t : Int) : Int := Sub now t

end time

namespace fsnotify

/-- The operation bit `fsnotify.Create` (`1 << iota`). -/
def Create : Nat := 1
/-- The operation bit `fsnotify.Write`. -/
def Write : Nat := 2
/-- The operation bit `fsnotify.Remove`. -/
def Remove : Nat := 4
/-- The operation bit `fsnotify.Rename`. -/
def Rename : Nat := 8
/-- The operation bit `fsnotify.Chmod`. -/
def Chmod : Nat := 16

/-- The struct `fsnotify.Event`: a path and a bit mask of operations (`Op` is a `uint32`;
only `&` and `|` are applied to it, so it is kept as a natural number). -/
structure Event where
  Name : String
  Op : Nat
  deriving DecidableEq, Repr

end fsnotify

/-- The library functions `Watch` calls that do not depend on the outside world. -/
structure Env where
  /-- The function `filepath.Clean`. -/
  Clean : String → String
  /-- The function `filepath.Split`: directory and file name. -/
  Split : String → String × String
  /-- The method `fsnotify.Event.String`, the signature used by the debounce. -/
  EventString : fsnotify.Event → String

/-- The struct `File`. -/
structure File where
  Path : String
  deriving DecidableEq, Repr

/-! ## Inputs from the outside world -/

/-- Outcomes of the calls made before the loop. -/
structure Setup where
  /-- Result of `filepath.EvalSymlinks(f.Path)` at line 29. -/
  evalSymlinks : Except Err String
  /-- Error result of `fsnotify.NewWatcher()` at line 39. -/
  newWatcher : GoError
  /-- Error result of `w.Add(fDir)` at line 50. -/
  add : GoError

/-- One value received from `w.Events`, with what the iteration reads while handling it. -/
structure Delivery where
  /-- The event received. -/
  event : fsnotify.Event
  /-- The clock as read inside `time.Since` at line 64 (read only when the signatures
  are equal). -/
  sinceNow : Int
  /-- The clock as read by `time.Now()` at line 68. -/
  now : Int
  /-- What `filepath.EvalSymlinks(f.Path)` returns at line 85, if called. -/
  evalSymlinks : Except Err String
  /-- What `reload()` returns at line 97, if called. -/
  reload : GoError

/-- The case of the `select` statement taken by one iteration. -/
inductive Recv where
  /-- A value was received from `w.Events` (`ok` is true). -/
  | event (d : Delivery)
  /-- The channel `w.Events` is closed (`ok` is false). -/
  | eventsClosed
  /-- A value was received from `w.Errors` (`ok` is true); the value may be nil. -/
  | error (err : GoError)
  /-- The channel `w.Errors` is closed (`ok` is false). -/
  | errorsClosed
  /-- The channel `ctx.Done()` is ready. -/
  | done

/-! ## State -/

/-- The variables that live across loop iterations. Instants are in nanoseconds on a
time line whose origin is the zero `time.Time`, the initial `lastEventTime`. -/
structure Loop where
  realPath : String
  lastEvent : String
  lastEventTime : Int
  deriving DecidableEq, Repr

/-- The program point at which a step ended, by source line. -/
inductive Site where
  /-- Line 31: the first `EvalSymlinks` failed. -/
  | setupResolve
  /-- Line 41: `NewWatcher` failed. -/
  | setupNewWatcher
  /-- Line 52: `w.Add` failed. -/
  | setupAdd
  /-- Line 55: the loop was entered. -/
  | entered
  /-- Line 59: the event channel was closed. -/
  | eventsClosed
  /-- Line 65: `continue` of the debounce. -/
  | debounced
  /-- Line 75: `continue` of the path comparison. -/
  | irrelevant
  /-- Line 80: the file was removed. -/
  | removed
  /-- Line 87: `EvalSymlinks` failed inside the loop. -/
  | resolveFailed
  /-- Line 93: `continue` of the operation test. -/
  | nonTrigger
  /-- Line 98: `reload` failed. -/
  | reloadFailed
  /-- Line 99: `reload` succeeded, the iteration is over. -/
  | reloaded
  /-- Line 104: the error channel was closed. -/
  | errorsClosed
  /-- Line 107: an error value was received. -/
  | notifierError
  /-- Line 109: the context was cancelled. -/
  | cancelled
  deriving DecidableEq, Repr

/-- Whether `Watch` is blocked in its `select` or has returned. -/
inductive Status where
  /-- Blocked in `select` with these loop variables. -/
  | watching (s : Loop)
  /-- Returned this value. -/
  | returned (err : GoError)
  deriving DecidableEq, Repr

/-- A run of `Watch` so far: its status and the calls it has made. -/
structure Run where
  status : Status
  /-- Where the last step ended. -/
  site : Site
  /-- Number of calls of `reload`. -/
  reloads : Nat
  /-- Successful results of `EvalSymlinks(f.Path)`, the most recent first. -/
  resolved : List String
  /-- Whether `NewWatcher` has succeeded. -/
  opened : Bool
  /-- The directory passed to `w.Add`, once called. -/
  added : Option String
  /-- Number of calls of `w.Close`. -/
  closes : Nat
  deriving DecidableEq, Repr

/-- The loop goes on to its next iteration with variables `s`. -/
def Run.next (r : Run) (site : Site) (s : Loop) : Run :=
  { r with status := .watching s, site := site }

/-- A `return err` after line 43: the deferred `w.Close()` runs. -/
def Run.ret (r : Run) (site : Site) (err : GoError) : Run :=
  { r with status := .returned err, site := site, closes := r.closes + 1 }

/-! ## The program -/

/-- Lines 29-53: resolution of the path and subscription to the parent directory. -/
def start (env : Env) (f : File) (setup : Setup) : Run :=
  match setup.evalSymlinks with
  | .error err =>
    { status := .returned (some err), site := .setupResolve, reloads := 0, resolved := [],
      opened := false, added := none, closes := 0 }
  | .ok realPath0 =>
    let realPath := env.Clean realPath0
    let fDir := (env.Split f.Path).1
    match setup.newWatcher with
    | some err =>
      { status := .returned (some err), site := .setupNewWatcher, reloads := 0,
        resolved := [realPath0], opened := false, added := none, closes := 0 }
    | none =>
      match setup.add with
      | some err =>
        { status := .returned (some (Err.wrap err "unable to add watch dir")),
          site := .setupAdd, reloads := 0, resolved := [realPath0], opened := true,
          added := some fDir, closes := 1 }
      | none =>
        { status := .watching ⟨realPath, "", 0⟩, site := .entered, reloads := 0,
          resolved := [realPath0], opened := true, added := some fDir, closes := 0 }

/-- The condition of line 64. -/
def debounce (env : Env) (s : Loop) (d : Delivery) : Prop :=
  env.EventString d.event = s.lastEvent ∧
    time.Since d.sinceNow s.lastEventTime < time.Millisecond * 5

instance (env : Env) (s : Loop) (d : Delivery) : Decidable (debounce env s d) := by
  unfold debounce; infer_instance

/-- The negation of the condition of line 74: the event is on the watched file. -/
def relevant (env : Env) (f : File) (realPath : String) (ev : fsnotify.Event) : Prop :=
  env.Clean ev.Name = realPath ∨ env.Clean ev.Name = f.Path

instance (env : Env) (f : File) (realPath : String) (ev : fsnotify.Event) :
    Decidable (relevant env f realPath ev) := by
  unfold relevant; infer_instance

/-- Lines 70-99: an event that passed the debounce, with `s` already holding the
new `lastEvent` and `lastEventTime`. -/
def handle (env : Env) (f : File) (r : Run) (s : Loop) (d : Delivery) : Run :=
  let evFile := env.Clean d.event.Name
  if evFile ≠ s.realPath ∧ evFile ≠ f.Path then
    r.next .irrelevant s
  else if d.event.Op &&& fsnotify.Remove ≠ 0 then
    r.ret .removed (some (Err.errorf ("file " ++ d.event.Name ++ " was removed")))
  else
    match d.evalSymlinks with
    | .error err => r.ret .resolveFailed (some err)
    | .ok curPath =>
      let r1 : Run := { r with resolved := curPath :: r.resolved }
      let s1 : Loop := { s with realPath := env.Clean curPath }
      if d.event.Op &&& (fsnotify.Write ||| fsnotify.Create) = 0 then
        r1.next .nonTrigger s1
      else
        let r2 : Run := { r1 with reloads := r1.reloads + 1 }
        match d.reload with
        | some err => r2.ret .reloadFailed (some err)
        | none => r2.next .reloaded s1

/-- Lines 62-99: the body of `case event, ok := <-w.Events` when `ok` is true. -/
def onEvent (env : Env) (f : File) (r : Run) (s : Loop) (d : Delivery) : Run :=
  if debounce env s d then
    r.next .debounced s
  else
    handle env f r { s with lastEvent := env.EventString d.event, lastEventTime := d.now } d

/-- One iteration of the loop (lines 56-110) from loop variables `s`. -/
def iterate (env : Env) (f : File) (r : Run) (s : Loop) : Recv → Run
  | .event d => onEvent env f r s d
  | .eventsClosed => r.ret .eventsClosed (some (Err.new "fsnotify watch channel closed"))
  | .error err => r.ret .notifierError err
  | .errorsClosed => r.ret .errorsClosed (some (Err.new "fsnotify err channel closed"))
  | .done => r.ret .cancelled none

/-- One `select` case taken: an iteration if `Watch` is still in its loop; after
`Watch` has returned nothing is received any more. -/
def step (env : Env) (f : File) (r : Run) (x : Recv) : Run :=
  match r.status with
  | .watching s => iterate env f r s x
  | .returned _ => r

/-- The method `File.Watch`, run on the setup outcomes and the cases its `select` takes. -/
def Watch (env : Env) (f : File) (setup : Setup) (inputs : List Recv) : Run :=
  inputs.foldl (step env f) (start env f setup)

/-- What the debounce relies on in `Event.String`: it is never the empty string (the
initial `lastEvent`), and events with the same signature have the same path and agree
on the `Remove` bit. -/
def Env.Signature (env : Env) : Prop :=
  (∀ ev, env.EventString ev ≠ "") ∧
  ∀ ev ev', env.EventString ev = env.EventString ev' →
    ev.Name = ev'.Name ∧ ev.Op &&& fsnotify.Remove = ev'.Op &&& fsnotify.Remove

/-- The recorded signature is not that of a removal of the watched file: such an
event ends `Watch`, so it is never the last event of a loop that goes on. -/
def Run.SigInv (env : Env) (f : File) (r : Run) : Prop :=
  ∀ s, r.status = .watching s → ∀ ev, env.EventString ev = s.lastEvent →
    ¬ (relevant env f s.realPath ev ∧ ev.Op &&& fsnotify.Remove ≠ 0)

/-- While `Watch` is in its loop the subscription is open: `NewWatcher` succeeded,
`w.Add` was called and `w.Close` was not. -/
def Run.Subscribed (r : Run) : Prop :=
  ∀ s, r.status = .watching s → r.opened = true ∧ r.added ≠ none ∧ r.closes = 0

/-- While `Watch` is in its loop, `realPath` is the cleaned result of the most recent
successful `EvalSymlinks(f.Path)`. -/
def Run.Fresh (env : Env) (r : Run) : Prop :=
  ∀ s, r.status = .watching s →
    ∃ p, r.resolved.head? = some p ∧ s.realPath = env.Clean p

/-- The `return` statements of `Watch` other than the one of the cancellation. -/
def faultSites : List Site :=
  [.setupResolve, .setupNewWatcher, .setupAdd, .eventsClosed, .removed, .resolveFailed,
    .reloadFailed, .errorsClosed, .notifierError]

/-- A run that has returned did so either at the cancellation with nil, or at one of
the other `return` statements with a non-nil error. -/
def Run.Exits (r : Run) : Prop :=
  ∀ err, r.status = .returned err →
    (r.site = .cancelled ∧ err = none) ∨ (r.site ∈ faultSites ∧ err ≠ none)

/-! ## Concrete inputs used to instantiate the theorems -/

/-- A signature that determines the event: `Op` letters, a colon, the name. -/
def demoString (ev : fsnotify.Event) : String :=
  String.mk (List.replicate ev.Op 'o' ++ ':' :: ev.Name.data)

/-- An environment for paths that are already clean. -/
def demoEnv : Env :=
  { Clean := fun p => p, Split := fun p => ("/cfg/", p.drop 5), EventString := demoString }

/-- An environment whose `Clean` removes a leading `./`, for a watched path that is
not in clean form. -/
def dotEnv : Env :=
  { Clean := fun p =>
      match p.data with
      | '.' :: '/' :: cs => String.mk cs
      | _ => p,
    Split := fun p => ("./", p.drop 2), EventString := demoString }

/-- The watched file of the scenario of the specification. -/
def demoFile : File := ⟨"/cfg/app.yaml"⟩

/-- A setup in which every call succeeds. -/
def demoSetup : Setup := ⟨.ok "/cfg/app.yaml", none, none⟩

/-- A delivery of `ev` at clock reading `t`, with successful resolution to `target`
and successful reload. -/
def deliver (ev : fsnotify.Event) (t : Int) (target : String) : Delivery :=
  ⟨ev, t, t, .ok target, none⟩

/-- A write to the watched file. -/
def writeEvent : fsnotify.Event := ⟨"/cfg/app.yaml", fsnotify.Write⟩

/-- A permission change of the watched file. -/
def chmodEvent : fsnotify.Event := ⟨"/cfg/app.yaml", fsnotify.Chmod⟩

/-- The watched file is renamed away: the event arrives 10 ms after the last one and
the path no longer resolves. -/
def renamedAway : Delivery :=
  ⟨⟨"/cfg/app.yaml", fsnotify.Rename⟩, 10000000, 10000000,
    .error (Err.foreign "lstat /cfg/app.yaml: no such file or directory"), none⟩

/-- The watched path is a symbolic link that resolves to version 1 at setup. -/
def linkSetup : Setup := ⟨.ok "/data/v1/app.yaml", none, none⟩

/-- The link is created anew, now pointing to version 2. -/
def relinked : Delivery := deliver ⟨"/cfg/app.yaml", fsnotify.Create⟩ 0 "/data/v2/app.yaml"

/-- A link is created at the watched path whose target does not exist, 10 ms after
the last event. -/
def danglingLink : Delivery :=
  ⟨⟨"/cfg/app.yaml", fsnotify.Create⟩, 10000000, 10000000,
    .error (Err.foreign "lstat /data/v3/app.yaml: no such file or directory"), none⟩

/-- A write to the watched file, 10 ms after the last event, on which `reload` fails. -/
def failingReload : Delivery :=
  ⟨writeEvent, 10000000, 10000000, .ok "/cfg/app.yaml", some (Err.foreign "reload failed")⟩

/-- The loop variables after one handled write at time 0. -/
def demoLoop : Loop := ⟨"/cfg/app.yaml", demoString writeEvent, 0⟩

/-- The run after setup and one handled write at time 0. -/
def demoRun : Run :=
  Watch demoEnv demoFile demoSetup [.event (deliver writeEvent 0 "/cfg/app.yaml")]

/-! ## Basic facts -/

theorem since_lt_window (now t : Int) :
    time.Since now t < time.Millisecond * 5 ↔ now - t < 5000000 := by
  unfold time.Since time.Sub time.Millisecond time.maxDuration time.minDuration
  split_ifs <;> omega

theorem debounce_iff (env : Env) (s : Loop) (d : Delivery) :
    debounce env s d ↔
      env.EventString d.event = s.lastEvent ∧ d.sinceNow - s.lastEventTime < 5000000 := by
  unfold debounce
  rw [since_lt_window]

theorem step_watching (env : Env) (f : File) (r : Run) (s : Loop) (x : Recv)
    (hs : r.status = .watching s) : step env f r x = iterate env f r s x := by
  unfold step
  rw [hs]

theorem step_returned (env : Env) (f : File) (r : Run) (err : GoError) (x : Recv)
    (hs : r.status = .returned err) : step env f r x = r := by
  unfold step
  rw [hs]

/-- The six ways lines 70-99 can end. -/
theorem handle_cases (env : Env) (f : File) (r : Run) (s : Loop) (d : Delivery) :
    (¬ relevant env f s.realPath d.event ∧ handle env f r s d = r.next .irrelevant s) ∨
    (relevant env f s.realPath d.event ∧ d.event.Op &&& fsnotify.Remove ≠ 0 ∧
      handle env f r s d =
        r.ret .removed (some (Err.errorf ("file " ++ d.event.Name ++ " was removed")))) ∨
    (relevant env f s.realPath d.event ∧ d.event.Op &&& fsnotify.Remove = 0 ∧
      ∃ err, d.evalSymlinks = .error err ∧
        handle env f r s d = r.ret .resolveFailed (some err)) ∨
    (relevant env f s.realPath d.event ∧ d.event.Op &&& fsnotify.Remove = 0 ∧
      d.event.Op &&& (fsnotify.Write ||| fsnotify.Create) = 0 ∧
      ∃ curPath, d.evalSymlinks = .ok curPath ∧
        handle env f r s d =
          Run.next { r with resolved := curPath :: r.resolved } .nonTrigger
            { s with realPath := env.Clean curPath }) ∨
    (relevant env f s.realPath d.event ∧ d.event.Op &&& fsnotify.Remove = 0 ∧
      d.event.Op &&& (fsnotify.Write ||| fsnotify.Create) ≠ 0 ∧
      ∃ curPath err, d.evalSymlinks = .ok curPath ∧ d.reload = some err ∧
        handle env f r s d =
          Run.ret { r with resolved := curPath :: r.resolved, reloads := r.reloads + 1 }
            .reloadFailed (some err)) ∨
    (relevant env f s.realPath d.event ∧ d.event.Op &&& fsnotify.Remove = 0 ∧
      d.event.Op &&& (fsnotify.Write ||| fsnotify.Create) ≠ 0 ∧
      ∃ curPath, d.evalSymlinks = .ok curPath ∧ d.reload = none ∧
        handle env f r s d =
          Run.next { r with resolved := curPath :: r.resolved, reloads := r.reloads + 1 }
            .reloaded { s with realPath := env.Clean curPath }) := by
  unfold handle relevant
  by_cases hrel : env.Clean d.event.Name ≠ s.realPath ∧ env.Clean d.event.Name ≠ f.Path
  · left
    refine ⟨by tauto, ?_⟩
    simp only [if_pos hrel]
  · right
    have hrel' : env.Clean d.event.Name = s.realPath ∨ env.Clean d.event.Name = f.Path := by
      tauto
    simp only [if_neg hrel]
    by_cases hrm : d.event.Op &&& fsnotify.Remove ≠ 0
    · left
      exact ⟨hrel', hrm, by simp only [if_pos hrm]⟩
    · right
      have hrm' : d.event.Op &&& fsnotify.Remove = 0 := not_not.mp hrm
      simp only [if_neg hrm]
      cases hres : d.evalSymlinks with
      | error err =>
        left
        exact ⟨hrel', hrm', err, rfl, rfl⟩
      | ok curPath =>
        right
        by_cases hop : d.event.Op &&& (fsnotify.Write ||| fsnotify.Create) = 0
        · left
          exact ⟨hrel', hrm', hop, curPath, rfl, by simp only [if_pos hop]⟩
        · right
          cases hrl : d.reload with
          | some err =>
            left
            exact ⟨hrel', hrm', hop, curPath, err, rfl, rfl, by simp only [if_neg hop]⟩
          | none =>
            right
            exact ⟨hrel', hrm', hop, curPath, rfl, rfl, by simp only [if_neg hop]⟩

/-- An event that passes the debounce leaves its signature and time stamp in the loop
variables whenever the loop goes on. -/
theorem handle_records (env : Env) (f : File) (r : Run) (s s' : Loop) (d : Delivery)
    (h : (handle env f r s d).status = .watching s') :
    s'.lastEvent = s.lastEvent ∧ s'.lastEventTime = s.lastEventTime := by
  rcases handle_cases env f r s d with ⟨_, e⟩ | ⟨_, _, e⟩ | ⟨_, _, _, _, e⟩ |
    ⟨_, _, _, _, _, e⟩ | ⟨_, _, _, _, _, _, _, e⟩ | ⟨_, _, _, _, _, _, e⟩ <;>
  · rw [e] at h
    simp only [Run.next, Run.ret, Status.watching.injEq] at h
    first
      | (subst h; exact ⟨rfl, rfl⟩)
      | exact absurd h (by simp)

/-- Lines 70-99 never end at the `continue` of the debounce. -/
theorem handle_site (env : Env) (f : File) (r : Run) (s : Loop) (d : Delivery) :
    (handle env f r s d).site ≠ .debounced := by
  rcases handle_cases env f r s d with ⟨_, e⟩ | ⟨_, _, e⟩ | ⟨_, _, _, _, e⟩ |
    ⟨_, _, _, _, _, e⟩ | ⟨_, _, _, _, _, _, _, e⟩ | ⟨_, _, _, _, _, _, e⟩ <;>
  · rw [e]
    simp [Run.next, Run.ret]

theorem lor_eq_zero (a b : Nat) : a ||| b = 0 ↔ a = 0 ∧ b = 0 := by
  constructor
  · intro h
    have key : ∀ i, a.testBit i = false ∧ b.testBit i = false := by
      intro i
      have := congrArg (fun n => Nat.testBit n i) h
      simpa [Nat.testBit_or] using this
    exact ⟨Nat.eq_of_testBit_eq (fun i => by simp [(key i).1]),
      Nat.eq_of_testBit_eq (fun i => by simp [(key i).2])⟩
  · rintro ⟨rfl, rfl⟩
    rfl

/-- The test of line 92 in terms of the two bits. -/
theorem trigger_mask (op : Nat) :
    op &&& (fsnotify.Write ||| fsnotify.Create) = 0 ↔
      op &&& fsnotify.Create = 0 ∧ op &&& fsnotify.Write = 0 := by
  rw [Nat.and_or_distrib_left, lor_eq_zero]
  tauto

/-- An event that is not debounced is recorded and handled by lines 70-99. -/
theorem step_handled (env : Env) (f : File) (r : Run) (s : Loop) (d : Delivery)
    (hs : r.status = .watching s) (hnd : ¬ debounce env s d) :
    step env f r (.event d) =
      handle env f r ⟨s.realPath, env.EventString d.event, d.now⟩ d := by
  rw [step_watching env f r s _ hs]
  simp only [iterate, onEvent, if_neg hnd]

/-- Lines 85-99 for an event on the watched file without the `Remove` bit. -/
theorem handle_resolve (env : Env) (f : File) (r : Run) (s : Loop) (d : Delivery)
    (hrel : relevant env f s.realPath d.event) (hrm : d.event.Op &&& fsnotify.Remove = 0) :
    handle env f r s d =
      match d.evalSymlinks with
      | .error err => r.ret .resolveFailed (some err)
      | .ok curPath =>
        if d.event.Op &&& (fsnotify.Write ||| fsnotify.Create) = 0 then
          Run.next { r with resolved := curPath :: r.resolved } .nonTrigger
            { s with realPath := env.Clean curPath }
        else
          match d.reload with
          | some err =>
            Run.ret { r with resolved := curPath :: r.resolved, reloads := r.reloads + 1 }
              .reloadFailed (some err)
          | none =>
            Run.next { r with resolved := curPath :: r.resolved, reloads := r.reloads + 1 }
              .reloaded { s with realPath := env.Clean curPath } := by
  unfold relevant at hrel
  unfold handle
  have h1 : ¬ (env.Clean d.event.Name ≠ s.realPath ∧ env.Clean d.event.Name ≠ f.Path) := by
    tauto
  have h2 : ¬ (d.event.Op &&& fsnotify.Remove ≠ 0) := not_not.mpr hrm
  simp only [if_neg h1, if_neg h2]

/-- A triggering event: on the watched file, not debounced, without the `Remove` bit,
with the `Create` or the `Write` bit, and `f.Path` resolves. Then `reload` is called. -/
theorem step_trigger (env : Env) (f : File) (r : Run) (s : Loop) (d : Delivery)
    (curPath : String) (hs : r.status = .watching s) (hnd : ¬ debounce env s d)
    (hrel : relevant env f s.realPath d.event) (hrm : d.event.Op &&& fsnotify.Remove = 0)
    (hop : d.event.Op &&& fsnotify.Create ≠ 0 ∨ d.event.Op &&& fsnotify.Write ≠ 0)
    (hres : d.evalSymlinks = .ok curPath) :
    step env f r (.event d) =
      match d.reload with
      | some err =>
        Run.ret { r with resolved := curPath :: r.resolved, reloads := r.reloads + 1 }
          .reloadFailed (some err)
      | none =>
        Run.next { r with resolved := curPath :: r.resolved, reloads := r.reloads + 1 }
          .reloaded ⟨env.Clean curPath, env.EventString d.event, d.now⟩ := by
  have hmask : ¬ (d.event.Op &&& (fsnotify.Write ||| fsnotify.Create) = 0) := by
    rw [trigger_mask]
    tauto
  rw [step_handled env f r s d hs hnd,
    handle_resolve env f r ⟨s.realPath, env.EventString d.event, d.now⟩ d hrel hrm, hres]
  simp only [if_neg hmask]

/-! ## Runs -/

theorem foldl_step_returned (env : Env) (f : File) (r : Run) (err : GoError)
    (hs : r.status = .returned err) (xs : List Recv) :
    xs.foldl (step env f) r = r := by
  induction xs with
  | nil => rfl
  | cons x xs ih => rw [List.foldl_cons, step_returned env f r err x hs, ih]

theorem Watch_append (env : Env) (f : File) (setup : Setup) (pre xs : List Recv) :
    Watch env f setup (pre ++ xs) = xs.foldl (step env f) (Watch env f setup pre) := by
  unfold Watch
  rw [List.foldl_append]

/-- A step that makes `Watch` return ends the run: what would be received later
plays no role. -/
theorem Watch_ends (env : Env) (f : File) (setup : Setup) (pre rest : List Recv) (x : Recv)
    (err : GoError) (h : (step env f (Watch env f setup pre) x).status = .returned err) :
    Watch env f setup (pre ++ x :: rest) = step env f (Watch env f setup pre) x := by
  rw [Watch_append, List.foldl_cons, foldl_step_returned env f _ err h]

theorem Watch_snoc (env : Env) (f : File) (setup : Setup) (pre : List Recv) (x : Recv) :
    Watch env f setup (pre ++ [x]) = step env f (Watch env f setup pre) x := by
  rw [Watch_append]
  rfl

/-! ## The signature invariant -/

theorem start_sigInv (env : Env) (f : File) (setup : Setup) (hsig : env.Signature) :
    (start env f setup).SigInv env f := by
  intro s hs ev hev
  unfold start at hs
  split at hs
  · simp at hs
  · split at hs
    · simp at hs
    · split at hs
      · simp at hs
      · simp only [Status.watching.injEq] at hs
        subst hs
        exact absurd hev (hsig.1 ev)

theorem handle_sigInv (env : Env) (f : File) (r : Run) (s : Loop) (d : Delivery)
    (hsig : env.Signature) (hlast : s.lastEvent = env.EventString d.event) :
    (handle env f r s d).SigInv env f := by
  intro s' hs' ev hev
  rcases handle_cases env f r s d with ⟨hrel, e⟩ | ⟨_, _, e⟩ | ⟨_, _, _, _, e⟩ |
    ⟨_, hrm, _, _, _, e⟩ | ⟨_, _, _, _, _, _, _, e⟩ | ⟨_, hrm, _, _, _, _, e⟩
  · rw [e] at hs'
    simp only [Run.next, Status.watching.injEq] at hs'
    subst hs'
    rw [hlast] at hev
    have hname := (hsig.2 ev d.event hev).1
    intro h
    apply hrel
    unfold relevant at h ⊢
    rw [← hname]
    exact h.1
  · rw [e] at hs'
    simp [Run.ret] at hs'
  · rw [e] at hs'
    simp [Run.ret] at hs'
  · rw [e] at hs'
    simp only [Run.next, Status.watching.injEq] at hs'
    subst hs'
    simp only at hev
    rw [hlast] at hev
    have hop := (hsig.2 ev d.event hev).2
    intro h
    exact h.2 (by rw [hop]; exact hrm)
  · rw [e] at hs'
    simp [Run.ret] at hs'
  · rw [e] at hs'
    simp only [Run.next, Status.watching.injEq] at hs'
    subst hs'
    simp only at hev
    rw [hlast] at hev
    have hop := (hsig.2 ev d.event hev).2
    intro h
    exact h.2 (by rw [hop]; exact hrm)

theorem step_sigInv (env : Env) (f : File) (r : Run) (x : Recv) (hsig : env.Signature)
    (hr : r.SigInv env f) : (step env f r x).SigInv env f := by
  cases hst : r.status with
  | returned err => rw [step_returned env f r err x hst]; exact hr
  | watching s =>
    rw [step_watching env f r s x hst]
    cases x with
    | event d =>
      simp only [iterate, onEvent]
      by_cases hd : debounce env s d
      · rw [if_pos hd]
        intro s' hs' ev hev
        simp only [Run.next, Status.watching.injEq] at hs'
        subst hs'
        exact hr s hst ev hev
      · rw [if_neg hd]
        exact handle_sigInv env f r _ d hsig rfl
    | eventsClosed => intro s' hs'; simp [iterate, Run.ret] at hs'
    | error err => intro s' hs'; simp [iterate, Run.ret] at hs'
    | errorsClosed => intro s' hs'; simp [iterate, Run.ret] at hs'
    | done => intro s' hs'; simp [iterate, Run.ret] at hs'

theorem foldl_sigInv (env : Env) (f : File) (hsig : env.Signature) (xs : List Recv)
    (r : Run) (hr : r.SigInv env f) : (xs.foldl (step env f) r).SigInv env f := by
  induction xs generalizing r with
  | nil => exact hr
  | cons x xs ih => exact ih _ (step_sigInv env f r x hsig hr)

/-- In every state `Watch` reaches, the recorded signature is not that of a removal
of the watched file. -/
theorem Watch_sigInv (env : Env) (f : File) (setup : Setup) (inputs : List Recv)
    (hsig : env.Signature) : (Watch env f setup inputs).SigInv env f :=
  foldl_sigInv env f hsig inputs _ (start_sigInv env f setup hsig)

/-! ## The subscription -/

theorem start_subscribed (env : Env) (f : File) (setup : Setup) :
    (start env f setup).Subscribed := by
  intro s hs
  unfold start at hs ⊢
  split at hs
  · simp at hs
  · split at hs
    · simp at hs
    · split at hs
      · simp at hs
      · simp

theorem handle_subscribed (env : Env) (f : File) (r : Run) (s0 s : Loop) (d : Delivery)
    (hr : r.opened = true ∧ r.added ≠ none ∧ r.closes = 0) :
    (handle env f r s d).status = .watching s0 →
      (handle env f r s d).opened = true ∧ (handle env f r s d).added ≠ none ∧
        (handle env f r s d).closes = 0 := by
  rcases handle_cases env f r s d with ⟨_, e⟩ | ⟨_, _, e⟩ | ⟨_, _, _, _, e⟩ |
    ⟨_, _, _, _, _, e⟩ | ⟨_, _, _, _, _, _, _, e⟩ | ⟨_, _, _, _, _, _, e⟩ <;>
  · rw [e]
    intro h
    first
      | exact hr
      | exact absurd h (by simp [Run.ret])

theorem step_subscribed (env : Env) (f : File) (r : Run) (x : Recv) (hr : r.Subscribed) :
    (step env f r x).Subscribed := by
  cases hst : r.status with
  | returned err => rw [step_returned env f r err x hst]; exact hr
  | watching s =>
    rw [step_watching env f r s x hst]
    intro s' hs'
    cases x with
    | event d =>
      simp only [iterate, onEvent] at hs' ⊢
      by_cases hd : debounce env s d
      · rw [if_pos hd]
        exact hr s hst
      · rw [if_neg hd] at hs' ⊢
        exact handle_subscribed env f r s' _ d (hr s hst) hs'
    | eventsClosed => simp [iterate, Run.ret] at hs'
    | error err => simp [iterate, Run.ret] at hs'
    | errorsClosed => simp [iterate, Run.ret] at hs'
    | done => simp [iterate, Run.ret] at hs'

theorem foldl_subscribed (env : Env) (f : File) (xs : List Recv) (r : Run)
    (hr : r.Subscribed) : (xs.foldl (step env f) r).Subscribed := by
  induction xs generalizing r with
  | nil => exact hr
  | cons x xs ih => exact ih _ (step_subscribed env f r x hr)

/-- In every state `Watch` reaches in its loop the subscription is open and has not
been closed. -/
theorem Watch_subscribed (env : Env) (f : File) (setup : Setup) (inputs : List Recv) :
    (Watch env f setup inputs).Subscribed :=
  foldl_subscribed env f inputs _ (start_subscribed env f setup)

/-! ## The current real path -/

theorem start_fresh (env : Env) (f : File) (setup : Setup) :
    (start env f setup).Fresh env := by
  intro s hs
  unfold start at hs ⊢
  split at hs
  · simp at hs
  · split at hs
    · simp at hs
    · split at hs
      · simp at hs
      · simp only [Status.watching.injEq] at hs
        subst hs
        exact ⟨_, rfl, rfl⟩

theorem handle_fresh (env : Env) (f : File) (r : Run) (s : Loop) (d : Delivery)
    (hr : ∃ p, r.resolved.head? = some p ∧ s.realPath = env.Clean p) :
    (handle env f r s d).Fresh env := by
  intro s' hs'
  rcases handle_cases env f r s d with ⟨_, e⟩ | ⟨_, _, e⟩ | ⟨_, _, _, _, e⟩ |
    ⟨_, _, _, curPath, _, e⟩ | ⟨_, _, _, _, _, _, _, e⟩ | ⟨_, _, _, curPath, _, _, e⟩
  · rw [e] at hs' ⊢
    simp only [Run.next, Status.watching.injEq] at hs' ⊢
    subst hs'
    exact hr
  · rw [e] at hs'
    simp [Run.ret] at hs'
  · rw [e] at hs'
    simp [Run.ret] at hs'
  · rw [e] at hs' ⊢
    simp only [Run.next, Status.watching.injEq] at hs' ⊢
    subst hs'
    exact ⟨curPath, rfl, rfl⟩
  · rw [e] at hs'
    simp [Run.ret] at hs'
  · rw [e] at hs' ⊢
    simp only [Run.next, Status.watching.injEq] at hs' ⊢
    subst hs'
    exact ⟨curPath, rfl, rfl⟩

theorem step_fresh (env : Env) (f : File) (r : Run) (x : Recv) (hr : r.Fresh env) :
    (step env f r x).Fresh env := by
  cases hst : r.status with
  | returned err => rw [step_returned env f r err x hst]; exact hr
  | watching s =>
    rw [step_watching env f r s x hst]
    cases x with
    | event d =>
      simp only [iterate, onEvent]
      by_cases hd : debounce env s d
      · rw [if_pos hd]
        intro s' hs'
        simp only [Run.next, Status.watching.injEq] at hs'
        subst hs'
        exact hr s hst
      · rw [if_neg hd]
        exact handle_fresh env f r _ d (hr s hst)
    | eventsClosed => intro s' hs'; simp [iterate, Run.ret] at hs'
    | error err => intro s' hs'; simp [iterate, Run.ret] at hs'
    | errorsClosed => intro s' hs'; simp [iterate, Run.ret] at hs'
    | done => intro s' hs'; simp [iterate, Run.ret] at hs'

theorem foldl_fresh (env : Env) (f : File) (xs : List Recv) (r : Run)
    (hr : r.Fresh env) : (xs.foldl (step env f) r).Fresh env := by
  induction xs generalizing r with
  | nil => exact hr
  | cons x xs ih => exact ih _ (step_fresh env f r x hr)

/-- In every state `Watch` reaches in its loop, `realPath` is the cleaned result of the
most recent successful resolution of `f.Path`. -/
theorem Watch_fresh (env : Env) (f : File) (setup : Setup) (inputs : List Recv) :
    (Watch env f setup inputs).Fresh env :=
  foldl_fresh env f inputs _ (start_fresh env f setup)

/-- The step ends at the `continue` of line 75 exactly when the event passes the
debounce and its cleaned path is neither the current `realPath` nor `f.Path`. -/
theorem step_irrelevant_iff (env : Env) (f : File) (r : Run) (s : Loop) (d : Delivery)
    (hs : r.status = .watching s) :
    (step env f r (.event d)).site = .irrelevant ↔
      ¬ debounce env s d ∧ ¬ relevant env f s.realPath d.event := by
  by_cases hd : debounce env s d
  · rw [step_watching env f r s _ hs]
    simp only [iterate, onEvent, if_pos hd, Run.next]
    constructor
    · intro h; exact absurd h (by decide)
    · intro h; exact absurd hd h.1
  · rw [step_handled env f r s d hs hd]
    rcases handle_cases env f r ⟨s.realPath, env.EventString d.event, d.now⟩ d with
      ⟨h, e⟩ | ⟨h, _, e⟩ | ⟨h, _, _, _, e⟩ |
      ⟨h, _, _, _, _, e⟩ | ⟨h, _, _, _, _, _, _, e⟩ | ⟨h, _, _, _, _, _, e⟩
    · rw [e]
      exact ⟨fun _ => ⟨hd, h⟩, fun _ => rfl⟩
    all_goals
      rw [e]
      simp only [Run.next, Run.ret]
      constructor
      · intro h'; exact absurd h' (by decide)
      · intro h'; exact absurd h h'.2

/-! ## The value returned -/

theorem start_exits (env : Env) (f : File) (setup : Setup) : (start env f setup).Exits := by
  intro err hs
  unfold start at hs ⊢
  split at hs
  · simp only [Status.returned.injEq] at hs
    subst hs
    right
    simp [faultSites]
  · split at hs
    · simp only [Status.returned.injEq] at hs
      subst hs
      right
      simp [faultSites]
    · split at hs
      · simp only [Status.returned.injEq] at hs
        subst hs
        right
        simp [faultSites]
      · simp at hs

theorem handle_exits (env : Env) (f : File) (r : Run) (s : Loop) (d : Delivery) :
    (handle env f r s d).Exits := by
  intro err hs
  rcases handle_cases env f r s d with ⟨_, e⟩ | ⟨_, _, e⟩ | ⟨_, _, _, _, e⟩ |
    ⟨_, _, _, _, _, e⟩ | ⟨_, _, _, _, _, _, _, e⟩ | ⟨_, _, _, _, _, _, e⟩ <;>
  · rw [e] at hs ⊢
    simp only [Run.next, Run.ret, Status.returned.injEq] at hs ⊢
    first
      | exact absurd hs (by simp)
      | (subst hs; right; simp [faultSites])

theorem step_exits (env : Env) (f : File) (r : Run) (x : Recv) (hx : x ≠ .error none)
    (hr : r.Exits) : (step env f r x).Exits := by
  cases hst : r.status with
  | returned err => rw [step_returned env f r err x hst]; exact hr
  | watching s =>
    rw [step_watching env f r s x hst]
    cases x with
    | event d =>
      simp only [iterate, onEvent]
      by_cases hd : debounce env s d
      · rw [if_pos hd]
        intro err hs
        simp [Run.next] at hs
      · rw [if_neg hd]
        exact handle_exits env f r _ d
    | eventsClosed =>
      intro err hs
      simp only [iterate, Run.ret, Status.returned.injEq] at hs ⊢
      subst hs
      right
      simp [faultSites]
    | error e =>
      intro err hs
      simp only [iterate, Run.ret, Status.returned.injEq] at hs ⊢
      subst hs
      right
      refine ⟨by simp [faultSites], fun h => hx (by rw [h])⟩
    | errorsClosed =>
      intro err hs
      simp only [iterate, Run.ret, Status.returned.injEq] at hs ⊢
      subst hs
      right
      simp [faultSites]
    | done =>
      intro err hs
      simp only [iterate, Run.ret, Status.returned.injEq] at hs
      subst hs
      left
      exact ⟨rfl, rfl⟩

theorem foldl_exits (env : Env) (f : File) (xs : List Recv) (hxs : Recv.error none ∉ xs)
    (r : Run) (hr : r.Exits) : (xs.foldl (step env f) r).Exits := by
  induction xs generalizing r with
  | nil => exact hr
  | cons x xs ih =>
    rw [List.mem_cons, not_or] at hxs
    exact ih hxs.2 _ (step_exits env f r x (fun h => hxs.1 h.symm) hr)

/-- An iteration that returns nil has taken the cancellation case, unless it received
a nil value from `w.Errors`. -/
theorem step_nil_is_done (env : Env) (f : File) (r : Run) (s : Loop) (x : Recv)
    (hs : r.status = .watching s) (hx : x ≠ .error none)
    (hret : (step env f r x).status = .returned none) : x = .done := by
  rw [step_watching env f r s x hs] at hret
  cases x with
  | event d =>
    simp only [iterate, onEvent] at hret
    by_cases hd : debounce env s d
    · rw [if_pos hd] at hret
      simp [Run.next] at hret
    · rw [if_neg hd] at hret
      rcases handle_cases env f r ⟨s.realPath, env.EventString d.event, d.now⟩ d with
        ⟨_, e⟩ | ⟨_, _, e⟩ | ⟨_, _, _, _, e⟩ |
        ⟨_, _, _, _, _, e⟩ | ⟨_, _, _, _, _, _, _, e⟩ | ⟨_, _, _, _, _, _, e⟩ <;>
      · rw [e] at hret
        simp [Run.next, Run.ret] at hret
  | eventsClosed => simp [iterate, Run.ret] at hret
  | error e =>
    simp only [iterate, Run.ret, Status.returned.injEq] at hret
    exact absurd (by rw [hret]) hx
  | errorsClosed => simp [iterate, Run.ret] at hret
  | done => rfl

/-- A run that has returned did so before the loop, or at one step taken in the loop:
the inputs split into those received before that step, the case the step took, and
those never received. -/
theorem foldl_returned_split (env : Env) (f : File) (err : GoError) (xs : List Recv)
    (r : Run) (hret : (xs.foldl (step env f) r).status = .returned err) :
    r.status = .returned err ∨
    ∃ pre x rest s, xs = pre ++ x :: rest ∧
      (pre.foldl (step env f) r).status = .watching s ∧
      (step env f (pre.foldl (step env f) r) x).status = .returned err ∧
      xs.foldl (step env f) r = step env f (pre.foldl (step env f) r) x := by
  induction xs generalizing r with
  | nil => exact Or.inl hret
  | cons y ys ih =>
    rw [List.foldl_cons] at hret
    rcases ih (step env f r y) hret with h | ⟨pre, x, rest, s, hsplit, hw, hr, heq⟩
    · cases hst : r.status with
      | returned e =>
        rw [step_returned env f r e y hst, hst] at h
        exact Or.inl h
      | watching s =>
        right
        refine ⟨[], y, ys, s, rfl, hst, h, ?_⟩
        rw [List.foldl_cons]
        exact foldl_step_returned env f _ err h ys
    · right
      refine ⟨y :: pre, x, rest, s, by rw [hsplit]; rfl, hw, hr, ?_⟩
      rw [List.foldl_cons]
      exact heq

/-- A nil value received from `w.Errors` is returned as it is: `Watch` then returns nil
at line 107. -/
theorem nil_delivery (env : Env) (f : File) (r : Run) (s : Loop)
    (hs : r.status = .watching s) :
    (step env f r (.error none)).status = .returned none ∧
    (step env f r (.error none)).site = .notifierError := by
  rw [step_watching env f r s _ hs]
  exact ⟨rfl, rfl⟩

/-! ## The demonstration signature -/

theorem replicate_colon_inj (n m : Nat) (a b : List Char)
    (h : List.replicate n 'o' ++ ':' :: a = List.replicate m 'o' ++ ':' :: b) :
    n = m ∧ a = b := by
  induction n generalizing m with
  | zero =>
    cases m with
    | zero => simpa using h
    | succ m => simp [List.replicate_succ] at h
  | succ n ih =>
    cases m with
    | zero => simp [List.replicate_succ] at h
    | succ m =>
      simp only [List.replicate_succ, List.cons_append, List.cons.injEq, true_and] at h
      obtain ⟨h1, h2⟩ := ih m h
      exact ⟨by rw [h1], h2⟩

theorem demoString_injective (ev ev' : fsnotify.Event) (h : demoString ev = demoString ev') :
    ev = ev' := by
  unfold demoString at h
  have hd := congrArg String.data h
  obtain ⟨h1, h2⟩ := replicate_colon_inj _ _ _ _ hd
  cases ev with
  | mk n o =>
    cases ev' with
    | mk n' o' =>
      simp only at h1 h2
      have hn : n = n' := String.ext h2
      rw [h1, hn]

theorem demoEnv_signature : demoEnv.Signature := by
  constructor
  · intro ev h
    have h' : (demoString ev).data = [] := by
      have : demoEnv.EventString ev = demoString ev := rfl
      rw [← this, h]
    simp [demoString] at h'
  · intro ev ev' h
    have := demoString_injective ev ev' h
    subst this
    exact ⟨rfl, rfl⟩

theorem dotEnv_signature : dotEnv.Signature := demoEnv_signature

/-! ## C1: the debounce -/

/-- C1. An event received while watching whose signature equals `lastEvent`:
if it arrives less than 5 ms after `lastEventTime` it is discarded (the loop goes on
with the same loop variables, and no call of `reload`, `EvalSymlinks` or `Close` is
made); if it arrives 5 ms or more after it, it is not discarded by the debounce, its
signature and time stamp are recorded, and lines 70-99 handle it. -/
theorem debounce_window (env : Env) (f : File) (r : Run) (s : Loop) (d : Delivery)
    (hs : r.status = .watching s) (hsig : env.EventString d.event = s.lastEvent) :
    (d.sinceNow - s.lastEventTime < 5000000 →
      (step env f r (.event d)).status = .watching s ∧
      (step env f r (.event d)).site = .debounced ∧
      (step env f r (.event d)).reloads = r.reloads ∧
      (step env f r (.event d)).resolved = r.resolved ∧
      (step env f r (.event d)).closes = r.closes) ∧
    (5000000 ≤ d.sinceNow - s.lastEventTime →
      step env f r (.event d) =
        handle env f r ⟨s.realPath, env.EventString d.event, d.now⟩ d ∧
      (step env f r (.event d)).site ≠ .debounced ∧
      ∀ s', (step env f r (.event d)).status = .watching s' →
        s'.lastEvent = env.EventString d.event ∧ s'.lastEventTime = d.now) := by
  rw [step_watching env f r s _ hs]
  simp only [iterate, onEvent]
  constructor
  · intro hlt
    rw [if_pos ((debounce_iff env s d).2 ⟨hsig, hlt⟩)]
    exact ⟨rfl, rfl, rfl, rfl, rfl⟩
  · intro hge
    have hnd : ¬ debounce env s d := by
      rw [debounce_iff]; omega
    rw [if_neg hnd]
    refine ⟨rfl, handle_site env f r _ d, ?_⟩
    · intro s' h
      exact handle_records env f r _ s' d h

/-- C1 at concrete inputs: after a write handled at time 0, the same write at 2 ms is
discarded and the same write at 6 ms is not. -/
theorem debounce_window_witness :
    (step demoEnv demoFile demoRun
        (.event (deliver writeEvent 2000000 "/cfg/app.yaml"))).status = .watching demoLoop ∧
    (step demoEnv demoFile demoRun
        (.event (deliver writeEvent 6000000 "/cfg/app.yaml"))).site ≠ .debounced :=
  ⟨((debounce_window demoEnv demoFile demoRun demoLoop
        (deliver writeEvent 2000000 "/cfg/app.yaml") (by decide) rfl).1 (by decide)).1,
   ((debounce_window demoEnv demoFile demoRun demoLoop
        (deliver writeEvent 6000000 "/cfg/app.yaml") (by decide) rfl).2 (by decide)).2.1⟩

/-! ## C2: removal -/

theorem handle_removed (env : Env) (f : File) (r : Run) (s : Loop) (d : Delivery)
    (hrel : relevant env f s.realPath d.event) (hrm : d.event.Op &&& fsnotify.Remove ≠ 0) :
    handle env f r s d =
      r.ret .removed (some (Err.errorf ("file " ++ d.event.Name ++ " was removed"))) := by
  unfold relevant at hrel
  unfold handle
  have h1 : ¬ (env.Clean d.event.Name ≠ s.realPath ∧ env.Clean d.event.Name ≠ f.Path) := by
    tauto
  simp only [if_neg h1, if_pos hrm]

/-- A removal of the watched file ends every run that is still in its loop. -/
theorem removed_ends_run (env : Env) (f : File) (setup : Setup) (pre rest : List Recv)
    (s : Loop) (d : Delivery) (hsig : env.Signature)
    (hs : (Watch env f setup pre).status = .watching s)
    (hrel : env.Clean d.event.Name = s.realPath ∨ env.Clean d.event.Name = f.Path)
    (hrm : d.event.Op &&& fsnotify.Remove ≠ 0) :
    (Watch env f setup (pre ++ .event d :: rest)).status =
      .returned (some (Err.errorf ("file " ++ d.event.Name ++ " was removed"))) ∧
    (Watch env f setup (pre ++ .event d :: rest)).site = .removed ∧
    (Watch env f setup (pre ++ .event d :: rest)).reloads =
      (Watch env f setup pre).reloads := by
  have hnd : ¬ debounce env s d := by
    intro hd
    exact Watch_sigInv env f setup pre hsig s hs d.event hd.1 ⟨hrel, hrm⟩
  have hstep : step env f (Watch env f setup pre) (.event d) =
      (Watch env f setup pre).ret .removed
        (some (Err.errorf ("file " ++ d.event.Name ++ " was removed"))) := by
    rw [step_watching env f _ s _ hs]
    simp only [iterate, onEvent, if_neg hnd]
    exact handle_removed env f _ _ d hrel hrm
  rw [Watch_ends env f setup pre rest (.event d) _ (by rw [hstep]; rfl), hstep]
  exact ⟨rfl, rfl, rfl⟩

/-- C2. In every state `Watch` reaches in its loop, an event on the watched file (its
cleaned path is the current real path or `f.Path`) whose operation has the `Remove`
bit makes `Watch` return the error "file <event path> was removed", whatever the
other bits of the operation and whatever was received before; `reload` is not called
for it and nothing received later is looked at. -/
theorem removal_terminates (env : Env) (f : File) (setup : Setup) (pre rest : List Recv)
    (s : Loop) (d : Delivery) (hsig : env.Signature)
    (hs : (Watch env f setup pre).status = .watching s)
    (hrel : env.Clean d.event.Name = s.realPath ∨ env.Clean d.event.Name = f.Path)
    (hrm : d.event.Op &&& fsnotify.Remove ≠ 0) :
    (Watch env f setup (pre ++ .event d :: rest)).status =
      .returned (some (Err.errorf ("file " ++ d.event.Name ++ " was removed"))) ∧
    (Watch env f setup (pre ++ .event d :: rest)).site = .removed ∧
    (Watch env f setup (pre ++ .event d :: rest)).reloads =
      (Watch env f setup pre).reloads :=
  removed_ends_run env f setup pre rest s d hsig hs hrel hrm

/-- C2 at concrete inputs: 1 ms after a handled write, an event with the `Remove` and
`Write` bits on the watched file ends the watch with the removal error. -/
theorem removal_terminates_witness :
    (Watch demoEnv demoFile demoSetup
      ([.event (deliver writeEvent 0 "/cfg/app.yaml")] ++
        .event (deliver ⟨"/cfg/app.yaml", fsnotify.Remove ||| fsnotify.Write⟩ 1000000
          "/cfg/app.yaml") :: [.done])).status =
      .returned (some (Err.errorf ("file " ++ "/cfg/app.yaml" ++ " was removed"))) :=
  (removal_terminates demoEnv demoFile demoSetup
    [.event (deliver writeEvent 0 "/cfg/app.yaml")] [.done] demoLoop
    (deliver ⟨"/cfg/app.yaml", fsnotify.Remove ||| fsnotify.Write⟩ 1000000 "/cfg/app.yaml")
    demoEnv_signature (by decide) (by decide) (by decide)).1

/-! ## C3: events that do not trigger a reload -/

/-- C3 as stated fails. After one handled write, the watched file is renamed away:
the event is on the watched file, is not debounced, and has none of the `Create`,
`Write` and `Remove` bits, yet `Watch` does not keep running: line 87 returns the
error of `EvalSymlinks`. -/
theorem nonTrigger_counterexample :
    demoRun.status = .watching demoLoop ∧
    ¬ debounce demoEnv demoLoop renamedAway ∧
    relevant demoEnv demoFile demoLoop.realPath renamedAway.event ∧
    renamedAway.event.Op &&& fsnotify.Create = 0 ∧
    renamedAway.event.Op &&& fsnotify.Write = 0 ∧
    renamedAway.event.Op &&& fsnotify.Remove = 0 ∧
    (step demoEnv demoFile demoRun (.event renamedAway)).status =
      .returned (some (Err.foreign "lstat /cfg/app.yaml: no such file or directory")) ∧
    (step demoEnv demoFile demoRun (.event renamedAway)).site = .resolveFailed := by
  decide

/-- C3, amended. For an event on the watched file that is not debounced and has none
of the `Create`, `Write` and `Remove` bits, `reload` is not called; and if the
re-resolution of `f.Path` succeeds, the watch keeps running with the real path
replaced by the cleaned result. -/
theorem nonTrigger_refreshes (env : Env) (f : File) (r : Run) (s : Loop) (d : Delivery)
    (hs : r.status = .watching s) (hnd : ¬ debounce env s d)
    (hrel : relevant env f s.realPath d.event)
    (hc : d.event.Op &&& fsnotify.Create = 0) (hw : d.event.Op &&& fsnotify.Write = 0)
    (hrm : d.event.Op &&& fsnotify.Remove = 0) :
    (step env f r (.event d)).reloads = r.reloads ∧
    ∀ curPath, d.evalSymlinks = .ok curPath →
      (step env f r (.event d)).status =
        .watching ⟨env.Clean curPath, env.EventString d.event, d.now⟩ ∧
      (step env f r (.event d)).site = .nonTrigger ∧
      (step env f r (.event d)).resolved = curPath :: r.resolved := by
  have hop := (trigger_mask d.event.Op).2 ⟨hc, hw⟩
  rw [step_handled env f r s d hs hnd,
    handle_resolve env f r ⟨s.realPath, env.EventString d.event, d.now⟩ d hrel hrm]
  constructor
  · cases d.evalSymlinks with
    | error err => rfl
    | ok curPath => simp only [if_pos hop]; rfl
  · intro curPath hres
    rw [hres]
    simp only [if_pos hop]
    exact ⟨rfl, rfl, rfl⟩

/-- C3, amended, at concrete inputs: a permission change 10 ms after a handled write
calls no reload and the watch keeps running. -/
theorem nonTrigger_refreshes_witness :
    (step demoEnv demoFile demoRun
      (.event (deliver chmodEvent 10000000 "/cfg/app.yaml"))).reloads = demoRun.reloads ∧
    (step demoEnv demoFile demoRun
      (.event (deliver chmodEvent 10000000 "/cfg/app.yaml"))).status =
        .watching ⟨"/cfg/app.yaml", demoString chmodEvent, 10000000⟩ :=
  have h := nonTrigger_refreshes demoEnv demoFile demoRun demoLoop
    (deliver chmodEvent 10000000 "/cfg/app.yaml") (by decide) (by decide) (by decide)
    (by decide) (by decide) (by decide)
  ⟨h.1, (h.2 "/cfg/app.yaml" rfl).1⟩

/-! ## C4: cancellation -/

/-- C4. When the loop, in any state it reaches, takes the case `<-ctx.Done()`, `Watch`
returns nil at line 109, `reload` is not called in that step, and the subscription
opened at setup is closed (the deferred `w.Close()` has run, once). -/
theorem cancel_returns_nil (env : Env) (f : File) (setup : Setup) (pre rest : List Recv)
    (s : Loop) (hs : (Watch env f setup pre).status = .watching s) :
    (Watch env f setup (pre ++ .done :: rest)).status = .returned none ∧
    (Watch env f setup (pre ++ .done :: rest)).site = .cancelled ∧
    (Watch env f setup (pre ++ .done :: rest)).reloads = (Watch env f setup pre).reloads ∧
    (Watch env f setup (pre ++ .done :: rest)).opened = true ∧
    (Watch env f setup (pre ++ .done :: rest)).closes = 1 := by
  have hstep : step env f (Watch env f setup pre) .done =
      (Watch env f setup pre).ret .cancelled none := by
    rw [step_watching env f _ s _ hs]
    rfl
  obtain ⟨hopen, _, hclose⟩ := Watch_subscribed env f setup pre s hs
  rw [Watch_ends env f setup pre rest .done none (by rw [hstep]; rfl), hstep]
  refine ⟨rfl, rfl, rfl, hopen, ?_⟩
  simp only [Run.ret, hclose]

/-- C4 at concrete inputs: cancellation after one handled write. -/
theorem cancel_returns_nil_witness :
    (Watch demoEnv demoFile demoSetup
      ([.event (deliver writeEvent 0 "/cfg/app.yaml")] ++ .done :: [])).status =
        .returned none ∧
    (Watch demoEnv demoFile demoSetup
      ([.event (deliver writeEvent 0 "/cfg/app.yaml")] ++ .done :: [])).closes = 1 :=
  have h := cancel_returns_nil demoEnv demoFile demoSetup
    [.event (deliver writeEvent 0 "/cfg/app.yaml")] [] demoLoop (by decide)
  ⟨h.1, h.2.2.2.2⟩

/-! ## C5: symlink swaps -/

/-- C5. In every state `Watch` reaches in its loop, `realPath` is the cleaned result of
the most recent successful resolution of `f.Path`, and the path comparison of line 74
filters an event out exactly when it passes the debounce and its cleaned path is
neither that value nor `f.Path`. After an event on the watched file without the
`Remove` bit is handled and `f.Path` resolves to `curPath`, the most recent resolution
is `curPath`; the loop goes on with `realPath = Clean curPath` (unless `reload` was
called and failed), and then no event whose cleaned path is `Clean curPath` is
filtered out by the path comparison. -/
theorem follows_symlink (env : Env) (f : File) (setup : Setup) (pre : List Recv) (s : Loop)
    (hs : (Watch env f setup pre).status = .watching s) :
    (∃ p, (Watch env f setup pre).resolved.head? = some p ∧ s.realPath = env.Clean p ∧
      ∀ d, (step env f (Watch env f setup pre) (.event d)).site = .irrelevant ↔
        ¬ debounce env s d ∧ env.Clean d.event.Name ≠ env.Clean p ∧
          env.Clean d.event.Name ≠ f.Path) ∧
    (∀ d curPath, ¬ debounce env s d → relevant env f s.realPath d.event →
      d.event.Op &&& fsnotify.Remove = 0 → d.evalSymlinks = .ok curPath →
      (Watch env f setup (pre ++ [.event d])).resolved.head? = some curPath ∧
      ((Watch env f setup (pre ++ [.event d])).status =
          .watching ⟨env.Clean curPath, env.EventString d.event, d.now⟩ ∨
        ∃ err, d.reload = some err ∧
          (Watch env f setup (pre ++ [.event d])).status = .returned (some err)) ∧
      ∀ s', (Watch env f setup (pre ++ [.event d])).status = .watching s' →
        s'.realPath = env.Clean curPath ∧
        ∀ d2, env.Clean d2.event.Name = env.Clean curPath →
          relevant env f s'.realPath d2.event ∧
          (step env f (Watch env f setup (pre ++ [.event d])) (.event d2)).site ≠
            .irrelevant) := by
  constructor
  · obtain ⟨p, hp, hreal⟩ := Watch_fresh env f setup pre s hs
    refine ⟨p, hp, hreal, fun d => ?_⟩
    rw [step_irrelevant_iff env f _ s d hs, ← hreal]
    unfold relevant
    tauto
  · intro d curPath hnd hrel hrm hres
    have hrun : Watch env f setup (pre ++ [.event d]) =
        if d.event.Op &&& (fsnotify.Write ||| fsnotify.Create) = 0 then
          Run.next { Watch env f setup pre with
            resolved := curPath :: (Watch env f setup pre).resolved } .nonTrigger
            ⟨env.Clean curPath, env.EventString d.event, d.now⟩
        else
          match d.reload with
          | some err =>
            Run.ret { Watch env f setup pre with
              resolved := curPath :: (Watch env f setup pre).resolved,
              reloads := (Watch env f setup pre).reloads + 1 } .reloadFailed (some err)
          | none =>
            Run.next { Watch env f setup pre with
              resolved := curPath :: (Watch env f setup pre).resolved,
              reloads := (Watch env f setup pre).reloads + 1 } .reloaded
              ⟨env.Clean curPath, env.EventString d.event, d.now⟩ := by
      rw [Watch_snoc, step_handled env f _ s d hs hnd,
        handle_resolve env f _ ⟨s.realPath, env.EventString d.event, d.now⟩ d hrel hrm, hres]
    have hhead : (Watch env f setup (pre ++ [.event d])).resolved.head? = some curPath := by
      rw [hrun]
      split_ifs
      · rfl
      · cases d.reload <;> rfl
    have hstat : (Watch env f setup (pre ++ [.event d])).status =
          .watching ⟨env.Clean curPath, env.EventString d.event, d.now⟩ ∨
        ∃ err, d.reload = some err ∧
          (Watch env f setup (pre ++ [.event d])).status = .returned (some err) := by
      rw [hrun]
      split_ifs
      · exact Or.inl rfl
      · cases hrl : d.reload with
        | none => exact Or.inl rfl
        | some err => exact Or.inr ⟨err, rfl, rfl⟩
    refine ⟨hhead, hstat, fun s' hs' => ?_⟩
    have hreal : s'.realPath = env.Clean curPath := by
      rcases hstat with h | ⟨err, _, h⟩
      · rw [h] at hs'
        simp only [Status.watching.injEq] at hs'
        rw [← hs']
      · rw [h] at hs'
        simp at hs'
    refine ⟨hreal, fun d2 hd2 => ?_⟩
    have hrel2 : relevant env f s'.realPath d2.event := Or.inl (by rw [hd2, hreal])
    refine ⟨hrel2, fun hsite => ?_⟩
    exact ((step_irrelevant_iff env f _ s' d2 hs').1 hsite).2 hrel2

/-- C5 at concrete inputs: the watched link resolved to version 1 at setup and is then
created anew pointing to version 2. The most recent resolution is version 2, a write
to version 2 is not filtered out, and a write to version 1 is. -/
theorem follows_symlink_witness :
    (Watch demoEnv demoFile linkSetup ([] ++ [.event relinked])).resolved.head? =
      some "/data/v2/app.yaml" ∧
    (step demoEnv demoFile (Watch demoEnv demoFile linkSetup ([] ++ [.event relinked]))
      (.event (deliver ⟨"/data/v2/app.yaml", fsnotify.Write⟩ 1000000
        "/data/v2/app.yaml"))).site ≠ .irrelevant ∧
    (step demoEnv demoFile (Watch demoEnv demoFile linkSetup [.event relinked])
      (.event (deliver ⟨"/data/v1/app.yaml", fsnotify.Write⟩ 1000000
        "/data/v2/app.yaml"))).site = .irrelevant :=
  have h := (follows_symlink demoEnv demoFile linkSetup [] ⟨"/data/v1/app.yaml", "", 0⟩
    (by decide)).2 relinked "/data/v2/app.yaml" (by decide) (by decide) (by decide) rfl
  have h2 := (follows_symlink demoEnv demoFile linkSetup [.event relinked]
    ⟨"/data/v2/app.yaml", demoString relinked.event, 0⟩ (by decide)).1
  ⟨h.1,
   ((h.2.2 ⟨"/data/v2/app.yaml", demoString relinked.event, 0⟩ (by decide)).2
      (deliver ⟨"/data/v2/app.yaml", fsnotify.Write⟩ 1000000 "/data/v2/app.yaml") rfl).2,
   by
    obtain ⟨p, hp, _, hiff⟩ := h2
    have hp' : p = "/data/v2/app.yaml" := by
      have : (Watch demoEnv demoFile linkSetup [.event relinked]).resolved.head? =
          some "/data/v2/app.yaml" := by decide
      rw [this] at hp
      exact (Option.some.inj hp).symm
    subst hp'
    exact (hiff _).2 (by decide)⟩

/-! ## C6: one reload per triggering event -/

/-- C6 as stated fails. After one handled write, a link with a missing target is
created at the watched path: the event is on the watched file, is not debounced, has
the `Create` bit and not the `Remove` bit, yet `reload` is not called for it: line 87
returns the error of `EvalSymlinks`. -/
theorem trigger_without_reload :
    demoRun.status = .watching demoLoop ∧
    ¬ debounce demoEnv demoLoop danglingLink ∧
    relevant demoEnv demoFile demoLoop.realPath danglingLink.event ∧
    danglingLink.event.Op &&& fsnotify.Create ≠ 0 ∧
    danglingLink.event.Op &&& fsnotify.Remove = 0 ∧
    (step demoEnv demoFile demoRun (.event danglingLink)).reloads = demoRun.reloads ∧
    (step demoEnv demoFile demoRun (.event danglingLink)).status =
      .returned (some (Err.foreign "lstat /data/v3/app.yaml: no such file or directory")) := by
  decide

/-- C6, amended. For an event on the watched file that is not debounced, has the
`Create` or the `Write` bit and not the `Remove` bit, and for which the re-resolution
of `f.Path` succeeds, `reload` is called exactly once, and the loop goes on when it
succeeds. In particular, for a watched path `p`: a write to `p` at time `t` (an event
on the watched file; resolution and reload succeed), the same write 2 ms later and
then the removal of `p` (an event on the watched file) give one call of `reload` in
total, and `Watch` returns the removal error naming `p`. -/
theorem reload_once (env : Env) :
    (∀ (f : File) (r : Run) (s : Loop) (d : Delivery) (curPath : String),
      r.status = .watching s → ¬ debounce env s d → relevant env f s.realPath d.event →
      d.event.Op &&& fsnotify.Remove = 0 →
      (d.event.Op &&& fsnotify.Create ≠ 0 ∨ d.event.Op &&& fsnotify.Write ≠ 0) →
      d.evalSymlinks = .ok curPath →
      (step env f r (.event d)).reloads = r.reloads + 1 ∧
      (d.reload = none →
        (step env f r (.event d)).status =
          .watching ⟨env.Clean curPath, env.EventString d.event, d.now⟩ ∧
        (step env f r (.event d)).site = .reloaded)) ∧
    (∀ (p realPath0 curPath : String) (t : Int) (d1 d2 d3 : Delivery) (rest : List Recv),
      env.Signature →
      d1.event = ⟨p, fsnotify.Write⟩ → d1.now = t → d1.evalSymlinks = .ok curPath →
      d1.reload = none →
      d2.event = ⟨p, fsnotify.Write⟩ → d2.sinceNow = t + 2000000 →
      d3.event = ⟨p, fsnotify.Remove⟩ →
      relevant env ⟨p⟩ (env.Clean realPath0) d1.event →
      relevant env ⟨p⟩ (env.Clean curPath) d3.event →
      (Watch env ⟨p⟩ ⟨.ok realPath0, none, none⟩
        (.event d1 :: .event d2 :: .event d3 :: rest)).status =
          .returned (some (Err.errorf ("file " ++ p ++ " was removed"))) ∧
      (Watch env ⟨p⟩ ⟨.ok realPath0, none, none⟩
        (.event d1 :: .event d2 :: .event d3 :: rest)).reloads = 1) := by
  constructor
  · intro f r s d curPath hs hnd hrel hrm hop hres
    rw [step_trigger env f r s d curPath hs hnd hrel hrm hop hres]
    constructor
    · cases d.reload <;> rfl
    · intro hrl
      rw [hrl]
      exact ⟨rfl, rfl⟩
  · intro p realPath0 curPath t d1 d2 d3 rest hsig he1 hn1 hres1 hrl1 he2 hs2 he3 hrel1
      hrel3
    -- after setup
    have h0 : (Watch env ⟨p⟩ ⟨.ok realPath0, none, none⟩ []).status =
        .watching ⟨env.Clean realPath0, "", 0⟩ := rfl
    have hr0 : (Watch env ⟨p⟩ ⟨.ok realPath0, none, none⟩ []).reloads = 0 := rfl
    -- the first write triggers a reload
    have hnd1 : ¬ debounce env ⟨env.Clean realPath0, "", 0⟩ d1 :=
      fun h => hsig.1 d1.event h.1
    have hstep1 := step_trigger env ⟨p⟩ _ _ d1 curPath h0 hnd1 hrel1
      (by rw [he1]; show fsnotify.Write &&& fsnotify.Remove = 0; decide)
      (Or.inr (by rw [he1]; show fsnotify.Write &&& fsnotify.Write ≠ 0; decide)) hres1
    rw [hrl1] at hstep1
    have hw1 : Watch env ⟨p⟩ ⟨.ok realPath0, none, none⟩ ([] ++ [.event d1]) = _ :=
      (Watch_snoc env ⟨p⟩ _ [] (.event d1)).trans hstep1
    have hs1 : (Watch env ⟨p⟩ ⟨.ok realPath0, none, none⟩ ([] ++ [.event d1])).status =
        .watching ⟨env.Clean curPath, env.EventString d1.event, d1.now⟩ := by
      rw [hw1]; rfl
    have hr1 : (Watch env ⟨p⟩ ⟨.ok realPath0, none, none⟩ ([] ++ [.event d1])).reloads = 1 := by
      rw [hw1]; rfl
    -- the second write is debounced
    have hd2 : debounce env ⟨env.Clean curPath, env.EventString d1.event, d1.now⟩ d2 := by
      rw [debounce_iff]
      refine ⟨by rw [he1, he2], ?_⟩
      simp only [hs2, hn1]
      omega
    have hw2 : Watch env ⟨p⟩ ⟨.ok realPath0, none, none⟩ (([] ++ [.event d1]) ++ [.event d2]) =
        Run.next (Watch env ⟨p⟩ ⟨.ok realPath0, none, none⟩ ([] ++ [.event d1])) .debounced
          ⟨env.Clean curPath, env.EventString d1.event, d1.now⟩ := by
      rw [Watch_snoc, step_watching env ⟨p⟩ _ _ _ hs1]
      simp only [iterate, onEvent, if_pos hd2]
    have hs2' : (Watch env ⟨p⟩ ⟨.ok realPath0, none, none⟩
        (([] ++ [.event d1]) ++ [.event d2])).status =
        .watching ⟨env.Clean curPath, env.EventString d1.event, d1.now⟩ := by
      rw [hw2]; rfl
    have hr2 : (Watch env ⟨p⟩ ⟨.ok realPath0, none, none⟩
        (([] ++ [.event d1]) ++ [.event d2])).reloads = 1 := by
      rw [hw2]; exact hr1
    -- the removal ends the watch
    have hrm3 : d3.event.Op &&& fsnotify.Remove ≠ 0 := by
      rw [he3]; show fsnotify.Remove &&& fsnotify.Remove ≠ 0; decide
    have h3 := removed_ends_run env ⟨p⟩ ⟨.ok realPath0, none, none⟩
      (([] ++ [.event d1]) ++ [.event d2]) rest
      ⟨env.Clean curPath, env.EventString d1.event, d1.now⟩ d3 hsig hs2' hrel3 hrm3
    rw [he3] at h3
    exact ⟨h3.1, h3.2.2.trans hr2⟩

/-- C6, amended, at concrete inputs: a write 10 ms after a handled write calls `reload`
once; the scenario of the specification on `/cfg/app.yaml`; and the same scenario on
the watched path `./app.yaml`, which is not in clean form and whose events are on the
watched file through the resolved path `app.yaml`. -/
theorem reload_once_witness :
    (step demoEnv demoFile demoRun
      (.event (deliver writeEvent 10000000 "/cfg/app.yaml"))).reloads = demoRun.reloads + 1 ∧
    (Watch demoEnv ⟨"/cfg/app.yaml"⟩ ⟨.ok "/cfg/app.yaml", none, none⟩
      (.event (deliver ⟨"/cfg/app.yaml", fsnotify.Write⟩ 0 "/cfg/app.yaml") ::
        .event (deliver ⟨"/cfg/app.yaml", fsnotify.Write⟩ (0 + 2000000) "/cfg/app.yaml") ::
        .event (deliver ⟨"/cfg/app.yaml", fsnotify.Remove⟩ 3000000 "/cfg/app.yaml") ::
        [])).status =
      .returned (some (Err.errorf ("file " ++ "/cfg/app.yaml" ++ " was removed"))) ∧
    (Watch demoEnv ⟨"/cfg/app.yaml"⟩ ⟨.ok "/cfg/app.yaml", none, none⟩
      (.event (deliver ⟨"/cfg/app.yaml", fsnotify.Write⟩ 0 "/cfg/app.yaml") ::
        .event (deliver ⟨"/cfg/app.yaml", fsnotify.Write⟩ (0 + 2000000) "/cfg/app.yaml") ::
        .event (deliver ⟨"/cfg/app.yaml", fsnotify.Remove⟩ 3000000 "/cfg/app.yaml") ::
        [])).reloads = 1 ∧
    (Watch dotEnv ⟨"./app.yaml"⟩ ⟨.ok "app.yaml", none, none⟩
      (.event (deliver ⟨"./app.yaml", fsnotify.Write⟩ 0 "app.yaml") ::
        .event (deliver ⟨"./app.yaml", fsnotify.Write⟩ (0 + 2000000) "app.yaml") ::
        .event (deliver ⟨"./app.yaml", fsnotify.Remove⟩ 3000000 "app.yaml") ::
        [])).status =
      .returned (some (Err.errorf ("file " ++ "./app.yaml" ++ " was removed"))) ∧
    (Watch dotEnv ⟨"./app.yaml"⟩ ⟨.ok "app.yaml", none, none⟩
      (.event (deliver ⟨"./app.yaml", fsnotify.Write⟩ 0 "app.yaml") ::
        .event (deliver ⟨"./app.yaml", fsnotify.Write⟩ (0 + 2000000) "app.yaml") ::
        .event (deliver ⟨"./app.yaml", fsnotify.Remove⟩ 3000000 "app.yaml") ::
        [])).reloads = 1 :=
  have hA := (reload_once demoEnv).1 demoFile demoRun demoLoop
    (deliver writeEvent 10000000 "/cfg/app.yaml") "/cfg/app.yaml"
    (by decide) (by decide) (by decide) (by decide) (by decide) rfl
  have hB := (reload_once demoEnv).2 "/cfg/app.yaml" "/cfg/app.yaml" "/cfg/app.yaml" 0
    (deliver ⟨"/cfg/app.yaml", fsnotify.Write⟩ 0 "/cfg/app.yaml")
    (deliver ⟨"/cfg/app.yaml", fsnotify.Write⟩ (0 + 2000000) "/cfg/app.yaml")
    (deliver ⟨"/cfg/app.yaml", fsnotify.Remove⟩ 3000000 "/cfg/app.yaml") []
    demoEnv_signature rfl rfl rfl rfl rfl rfl rfl (by decide) (by decide)
  have hC := (reload_once dotEnv).2 "./app.yaml" "app.yaml" "app.yaml" 0
    (deliver ⟨"./app.yaml", fsnotify.Write⟩ 0 "app.yaml")
    (deliver ⟨"./app.yaml", fsnotify.Write⟩ (0 + 2000000) "app.yaml")
    (deliver ⟨"./app.yaml", fsnotify.Remove⟩ 3000000 "app.yaml") []
    dotEnv_signature rfl rfl rfl rfl rfl rfl rfl (by decide) (by decide)
  ⟨hA.1, hB.1, hB.2, hC.1, hC.2⟩

/-! ## C7: a failing reload -/

/-- C7. When `reload` returns an error on a triggering event (an event on the watched
file, not debounced, without the `Remove` bit, with the `Create` or `Write` bit, for
which `f.Path` resolves), `Watch` returns exactly that error at line 98: `reload` has
been called once for the event, and whatever would be received afterwards changes
nothing (no later event is handled, `reload` is not called again). -/
theorem reload_failure_returns (env : Env) (f : File) (setup : Setup)
    (pre rest : List Recv) (s : Loop) (d : Delivery) (curPath : String) (err : Err)
    (hs : (Watch env f setup pre).status = .watching s) (hnd : ¬ debounce env s d)
    (hrel : relevant env f s.realPath d.event) (hrm : d.event.Op &&& fsnotify.Remove = 0)
    (hop : d.event.Op &&& fsnotify.Create ≠ 0 ∨ d.event.Op &&& fsnotify.Write ≠ 0)
    (hres : d.evalSymlinks = .ok curPath) (hrl : d.reload = some err) :
    (Watch env f setup (pre ++ .event d :: rest)).status = .returned (some err) ∧
    (Watch env f setup (pre ++ .event d :: rest)).site = .reloadFailed ∧
    (Watch env f setup (pre ++ .event d :: rest)).reloads =
      (Watch env f setup pre).reloads + 1 ∧
    Watch env f setup (pre ++ .event d :: rest) = Watch env f setup (pre ++ [.event d]) := by
  have hstep := step_trigger env f _ s d curPath hs hnd hrel hrm hop hres
  rw [hrl] at hstep
  have hend := Watch_ends env f setup pre rest (.event d) (some err) (by rw [hstep]; rfl)
  rw [hend, Watch_snoc, hstep]
  exact ⟨rfl, rfl, rfl, rfl⟩

/-- C7 at concrete inputs: `reload` fails on the first write; the write and the
cancellation that follow are not looked at. -/
theorem reload_failure_returns_witness :
    (Watch demoEnv demoFile demoSetup
      ([] ++ .event failingReload ::
        [.event (deliver writeEvent 30000000 "/cfg/app.yaml"), .done])).status =
      .returned (some (Err.foreign "reload failed")) ∧
    (Watch demoEnv demoFile demoSetup
      ([] ++ .event failingReload ::
        [.event (deliver writeEvent 30000000 "/cfg/app.yaml"), .done])).reloads =
      (Watch demoEnv demoFile demoSetup []).reloads + 1 :=
  have h := reload_failure_returns demoEnv demoFile demoSetup []
    [.event (deliver writeEvent 30000000 "/cfg/app.yaml"), .done]
    ⟨"/cfg/app.yaml", "", 0⟩ failingReload "/cfg/app.yaml" (Err.foreign "reload failed")
    (by decide) (by decide) (by decide) (by decide) (by decide) rfl rfl
  ⟨h.1, h.2.2.1⟩

/-! ## C8: the relevance filter -/

/-- C8. An event whose cleaned path is neither the current `realPath` nor `f.Path` is
discarded whatever its operation: the step ends at a `continue` (that of the debounce
or that of line 75), the loop goes on with the same `realPath`, and `reload`,
`EvalSymlinks` and `Close` are not called. -/
theorem irrelevant_discarded (env : Env) (f : File) (r : Run) (s : Loop) (d : Delivery)
    (hs : r.status = .watching s) (h1 : env.Clean d.event.Name ≠ s.realPath)
    (h2 : env.Clean d.event.Name ≠ f.Path) :
    (∃ s', (step env f r (.event d)).status = .watching s' ∧ s'.realPath = s.realPath) ∧
    ((step env f r (.event d)).site = .debounced ∨
      (step env f r (.event d)).site = .irrelevant) ∧
    (step env f r (.event d)).reloads = r.reloads ∧
    (step env f r (.event d)).resolved = r.resolved ∧
    (step env f r (.event d)).closes = r.closes := by
  by_cases hd : debounce env s d
  · rw [step_watching env f r s _ hs]
    simp only [iterate, onEvent, if_pos hd]
    exact ⟨⟨s, rfl, rfl⟩, Or.inl rfl, rfl, rfl, rfl⟩
  · rw [step_handled env f r s d hs hd]
    unfold handle
    simp only [if_pos (show env.Clean d.event.Name ≠ s.realPath ∧
      env.Clean d.event.Name ≠ f.Path from ⟨h1, h2⟩)]
    exact ⟨⟨_, rfl, rfl⟩, Or.inr rfl, rfl, rfl, rfl⟩

/-- C8 at concrete inputs: the removal of another file of the directory, 10 ms after a
handled write, changes neither the real path nor the number of reloads. -/
theorem irrelevant_discarded_witness :
    (∃ s', (step demoEnv demoFile demoRun
        (.event (deliver ⟨"/cfg/other.yaml", fsnotify.Remove ||| fsnotify.Write⟩ 10000000
          "/cfg/app.yaml"))).status = .watching s' ∧ s'.realPath = demoLoop.realPath) ∧
    (step demoEnv demoFile demoRun
        (.event (deliver ⟨"/cfg/other.yaml", fsnotify.Remove ||| fsnotify.Write⟩ 10000000
          "/cfg/app.yaml"))).reloads = demoRun.reloads :=
  have h := irrelevant_discarded demoEnv demoFile demoRun demoLoop
    (deliver ⟨"/cfg/other.yaml", fsnotify.Remove ||| fsnotify.Write⟩ 10000000 "/cfg/app.yaml")
    (by decide) (by decide) (by decide)
  ⟨h.1, h.2.2.1⟩

/-! ## C9: notifier failures -/

/-- C9. In every state `Watch` reaches in its loop: a value received from `w.Errors` is
returned as it is; if `w.Errors` is closed `Watch` returns the error
"fsnotify err channel closed"; if `w.Events` is closed it returns the error
"fsnotify watch channel closed". In none of the three cases is `reload` called, and
nothing received later is looked at. -/
theorem notifier_failure (env : Env) (f : File) (setup : Setup) (pre rest : List Recv)
    (s : Loop) (hs : (Watch env f setup pre).status = .watching s) :
    (∀ err : GoError,
      (Watch env f setup (pre ++ .error err :: rest)).status = .returned err ∧
      (Watch env f setup (pre ++ .error err :: rest)).site = .notifierError ∧
      (Watch env f setup (pre ++ .error err :: rest)).reloads =
        (Watch env f setup pre).reloads) ∧
    ((Watch env f setup (pre ++ .errorsClosed :: rest)).status =
        .returned (some (Err.new "fsnotify err channel closed")) ∧
      (Watch env f setup (pre ++ .errorsClosed :: rest)).site = .errorsClosed ∧
      (Watch env f setup (pre ++ .errorsClosed :: rest)).reloads =
        (Watch env f setup pre).reloads) ∧
    ((Watch env f setup (pre ++ .eventsClosed :: rest)).status =
        .returned (some (Err.new "fsnotify watch channel closed")) ∧
      (Watch env f setup (pre ++ .eventsClosed :: rest)).site = .eventsClosed ∧
      (Watch env f setup (pre ++ .eventsClosed :: rest)).reloads =
        (Watch env f setup pre).reloads) := by
  refine ⟨fun err => ?_, ?_, ?_⟩
  · have hstep : step env f (Watch env f setup pre) (.error err) =
        (Watch env f setup pre).ret .notifierError err := by
      rw [step_watching env f _ s _ hs]; rfl
    rw [Watch_ends env f setup pre rest (.error err) err (by rw [hstep]; rfl), hstep]
    exact ⟨rfl, rfl, rfl⟩
  · have hstep : step env f (Watch env f setup pre) .errorsClosed =
        (Watch env f setup pre).ret .errorsClosed
          (some (Err.new "fsnotify err channel closed")) := by
      rw [step_watching env f _ s _ hs]; rfl
    rw [Watch_ends env f setup pre rest .errorsClosed _ (by rw [hstep]; rfl), hstep]
    exact ⟨rfl, rfl, rfl⟩
  · have hstep : step env f (Watch env f setup pre) .eventsClosed =
        (Watch env f setup pre).ret .eventsClosed
          (some (Err.new "fsnotify watch channel closed")) := by
      rw [step_watching env f _ s _ hs]; rfl
    rw [Watch_ends env f setup pre rest .eventsClosed _ (by rw [hstep]; rfl), hstep]
    exact ⟨rfl, rfl, rfl⟩

/-- C9 at concrete inputs: after one handled write, an overflow error of the notifier
is returned as it is, with no further reload. -/
theorem notifier_failure_witness :
    (Watch demoEnv demoFile demoSetup
      ([.event (deliver writeEvent 0 "/cfg/app.yaml")] ++
        .error (some (Err.foreign "fsnotify queue overflow")) :: [.done])).status =
      .returned (some (Err.foreign "fsnotify queue overflow")) ∧
    (Watch demoEnv demoFile demoSetup
      ([.event (deliver writeEvent 0 "/cfg/app.yaml")] ++
        .error (some (Err.foreign "fsnotify queue overflow")) :: [.done])).reloads =
      (Watch demoEnv demoFile demoSetup
        [.event (deliver writeEvent 0 "/cfg/app.yaml")]).reloads :=
  have h := (notifier_failure demoEnv demoFile demoSetup
    [.event (deliver writeEvent 0 "/cfg/app.yaml")] [.done] demoLoop (by decide)).1
    (some (Err.foreign "fsnotify queue overflow"))
  ⟨h.1, h.2.2⟩

/-! ## C10: nil is returned on cancellation only -/

/-- C10 as stated fails. Right after a successful setup the loop receives a nil value
from `w.Errors`: `Watch` returns nil at line 107, and the cancellation case was never
taken. -/
theorem nil_without_cancel :
    (Watch demoEnv demoFile demoSetup [.error none]).status = .returned none ∧
    (Watch demoEnv demoFile demoSetup [.error none]).site = .notifierError ∧
    Recv.done ∉ [Recv.error none] :=
  ⟨by decide, by decide, by simp⟩

/-- C10, amended. For every setup outcome and every sequence of `select` cases in which
the values received from `w.Errors` are errors (non-nil), a run of `Watch` that has
returned `err` did so either before the loop, with a non-nil error, or at one step `x`
taken in the loop, and then `err` is nil exactly when `x` is the cancellation case.
In terms of the `return` statements: nil is returned at line 109 only; each other
`return` statement (setup failure, closed channel, removal, failed re-resolution,
failed reload, notifier error) returns a non-nil error; and these are all of them. -/
theorem nil_only_on_cancel (env : Env) (f : File) (setup : Setup) (inputs : List Recv)
    (err : GoError) (hnn : Recv.error none ∉ inputs)
    (hret : (Watch env f setup inputs).status = .returned err) :
    (((start env f setup).status = .returned err ∧ err ≠ none) ∨
      ∃ pre x rest s, inputs = pre ++ x :: rest ∧
        (Watch env f setup pre).status = .watching s ∧
        (step env f (Watch env f setup pre) x).status = .returned err ∧
        Watch env f setup inputs = step env f (Watch env f setup pre) x ∧
        (err = none ↔ x = .done)) ∧
    (err = none → (Watch env f setup inputs).site = .cancelled) ∧
    ((Watch env f setup inputs).site ∈ faultSites → err ≠ none) ∧
    ((Watch env f setup inputs).site = .cancelled ∨
      (Watch env f setup inputs).site ∈ faultSites) := by
  have hex : (Watch env f setup inputs).Exits :=
    foldl_exits env f inputs hnn _ (start_exits env f setup)
  constructor
  · rcases foldl_returned_split env f err inputs (start env f setup) hret with
      h | ⟨pre, x, rest, s, hsplit, hw, hr, heq⟩
    · left
      refine ⟨h, ?_⟩
      rcases start_exits env f setup err h with ⟨hc, _⟩ | ⟨_, hne⟩
      · unfold start at hc
        split at hc
        · simp at hc
        · split at hc
          · simp at hc
          · split at hc <;> simp at hc
      · exact hne
    · right
      refine ⟨pre, x, rest, s, hsplit, hw, hr, heq, ?_, ?_⟩
      · intro h0
        have hx : x ≠ .error none := by
          intro hxe
          apply hnn
          rw [hsplit, hxe]
          simp
        rw [h0] at hr
        exact step_nil_is_done env f _ s x hw hx hr
      · intro hx
        rw [hx, step_watching env f _ s _ hw] at hr
        simp only [iterate, Run.ret, Status.returned.injEq] at hr
        exact hr.symm
  · rcases hex err hret with ⟨hc, _⟩ | ⟨hf, hne⟩
    · refine ⟨fun _ => hc, fun hf => ?_, Or.inl hc⟩
      rw [hc] at hf
      simp [faultSites] at hf
    · exact ⟨fun h0 => absurd h0 hne, fun _ => hne, Or.inr hf⟩

/-- C10, amended, at concrete inputs: a run that ends with the cancellation after a
handled write returns nil at line 109. -/
theorem nil_only_on_cancel_witness :
    (Watch demoEnv demoFile demoSetup
      [.event (deliver writeEvent 0 "/cfg/app.yaml"), .done, .errorsClosed]).site =
      .cancelled :=
  (nil_only_on_cancel demoEnv demoFile demoSetup
    [.event (deliver writeEvent 0 "/cfg/app.yaml"), .done, .errorsClosed] none
    (by simp) (by decide)).2.1 rfl

/-! ## C11: a failing re-resolution -/

/-- C11. In every state `Watch` reaches in its loop, an event on the watched file that
is not debounced and has no `Remove` bit, whatever its other bits, for which
`EvalSymlinks(f.Path)` fails, makes `Watch` return that error at line 87: `reload` is
not called, no new resolution is recorded (the real path is not updated), the step does
not end at one of the `continue` statements, and nothing received later is looked
at. -/
theorem resolve_failure_returns (env : Env) (f : File) (setup : Setup)
    (pre rest : List Recv) (s : Loop) (d : Delivery) (err : Err)
    (hs : (Watch env f setup pre).status = .watching s) (hnd : ¬ debounce env s d)
    (hrel : relevant env f s.realPath d.event) (hrm : d.event.Op &&& fsnotify.Remove = 0)
    (hres : d.evalSymlinks = .error err) :
    (Watch env f setup (pre ++ .event d :: rest)).status = .returned (some err) ∧
    (Watch env f setup (pre ++ .event d :: rest)).site = .resolveFailed ∧
    (Watch env f setup (pre ++ .event d :: rest)).reloads =
      (Watch env f setup pre).reloads ∧
    (Watch env f setup (pre ++ .event d :: rest)).resolved =
      (Watch env f setup pre).resolved ∧
    Watch env f setup (pre ++ .event d :: rest) = Watch env f setup (pre ++ [.event d]) := by
  have hstep : step env f (Watch env f setup pre) (.event d) =
      (Watch env f setup pre).ret .resolveFailed (some err) := by
    rw [step_handled env f _ s d hs hnd,
      handle_resolve env f _ ⟨s.realPath, env.EventString d.event, d.now⟩ d hrel hrm, hres]
  have hend := Watch_ends env f setup pre rest (.event d) (some err) (by rw [hstep]; rfl)
  rw [hend, Watch_snoc, hstep]
  exact ⟨rfl, rfl, rfl, rfl, rfl⟩

/-- C11 at concrete inputs: after one handled write the watched file is renamed away
and no longer resolves; `Watch` returns the error of `EvalSymlinks`, and the write
that follows is not looked at. -/
theorem resolve_failure_returns_witness :
    (Watch demoEnv demoFile demoSetup
      ([.event (deliver writeEvent 0 "/cfg/app.yaml")] ++ .event renamedAway ::
        [.event (deliver writeEvent 30000000 "/cfg/app.yaml")])).status =
      .returned (some (Err.foreign "lstat /cfg/app.yaml: no such file or directory")) ∧
    (Watch demoEnv demoFile demoSetup
      ([.event (deliver writeEvent 0 "/cfg/app.yaml")] ++ .event renamedAway ::
        [.event (deliver writeEvent 30000000 "/cfg/app.yaml")])).reloads =
      (Watch demoEnv demoFile demoSetup
        [.event (deliver writeEvent 0 "/cfg/app.yaml")]).reloads :=
  have h := resolve_failure_returns demoEnv demoFile demoSetup
    [.event (deliver writeEvent 0 "/cfg/app.yaml")]
    [.event (deliver writeEvent 30000000 "/cfg/app.yaml")] demoLoop renamedAway
    (Err.foreign "lstat /cfg/app.yaml: no such file or directory")
    (by decide) (by decide) (by decide) (by decide) rfl
  ⟨h.1, h.2.2.1⟩

/-! ## C12: the anchor of the debounce window -/

/-- A debounced event changes nothing but the site of the run. -/
theorem step_debounced (env : Env) (f : File) (r : Run) (s : Loop) (d : Delivery)
    (hs : r.status = .watching s) (hd : debounce env s d) :
    step env f r (.event d) = r.next .debounced s := by
  rw [step_watching env f r s _ hs]
  simp only [iterate, onEvent, if_pos hd]

/-- C12. From any state of the loop, with recorded signature `s.lastEvent` and time
stamp `s.lastEventTime`:
(1) a suppressed duplicate leaves both as they are;
(2) an event that is not suppressed is recorded before lines 70-99 handle it, so also
when the path comparison of line 74 then discards it;
(3) after a suppressed duplicate, an event with the recorded signature that arrives
5 ms or more after the recorded time stamp is not suppressed, however shortly after
the duplicate it arrives;
(4) identical write events on the watched file at `t`, `t + 3 ms` and `t + 6 ms`: the
first and the third are handled (two calls of `reload` when `f.Path` resolves for the
third), the second is suppressed;
(5) an event with the recorded signature is not suppressed, whatever its time, when
an event with another signature was received in between. -/
theorem debounce_anchor (env : Env) (f : File) (r : Run) (s : Loop)
    (hs : r.status = .watching s) :
    (∀ d, debounce env s d →
      (step env f r (.event d)).status = .watching s ∧
      (step env f r (.event d)).site = .debounced) ∧
    (∀ d, ¬ debounce env s d →
      step env f r (.event d) =
        handle env f r ⟨s.realPath, env.EventString d.event, d.now⟩ d ∧
      (∀ s', (step env f r (.event d)).status = .watching s' →
        s'.lastEvent = env.EventString d.event ∧ s'.lastEventTime = d.now) ∧
      (¬ relevant env f s.realPath d.event →
        (step env f r (.event d)).status =
          .watching ⟨s.realPath, env.EventString d.event, d.now⟩ ∧
        (step env f r (.event d)).site = .irrelevant)) ∧
    (∀ d2 d3, env.EventString d2.event = s.lastEvent →
      env.EventString d3.event = s.lastEvent →
      d2.sinceNow - s.lastEventTime < 5000000 →
      5000000 ≤ d3.sinceNow - s.lastEventTime →
      (step env f r (.event d2)).status = .watching s ∧
      (step env f r (.event d2)).site = .debounced ∧
      (step env f (step env f r (.event d2)) (.event d3)).site ≠ .debounced ∧
      step env f (step env f r (.event d2)) (.event d3) =
        handle env f (step env f r (.event d2))
          ⟨s.realPath, env.EventString d3.event, d3.now⟩ d3) ∧
    (∀ (d1 d2 d3 : Delivery) (curPath : String) (t : Int),
      ¬ debounce env s d1 → relevant env f s.realPath d1.event →
      relevant env f (env.Clean curPath) d1.event →
      d1.event.Op &&& fsnotify.Remove = 0 → d1.event.Op &&& fsnotify.Write ≠ 0 →
      d1.evalSymlinks = .ok curPath → d1.reload = none → d1.now = t →
      d2.event = d1.event → d2.sinceNow = t + 3000000 →
      d3.event = d1.event → d3.sinceNow = t + 6000000 →
      (step env f r (.event d1)).site = .reloaded ∧
      (step env f (step env f r (.event d1)) (.event d2)).site = .debounced ∧
      (step env f (step env f r (.event d1)) (.event d2)).reloads = r.reloads + 1 ∧
      (step env f (step env f (step env f r (.event d1)) (.event d2)) (.event d3)).site ≠
        .debounced ∧
      ∀ c3, d3.evalSymlinks = .ok c3 →
        (step env f (step env f (step env f r (.event d1)) (.event d2))
          (.event d3)).reloads = r.reloads + 2) ∧
    (∀ d2 d3 s2, env.EventString d2.event ≠ s.lastEvent →
      env.EventString d3.event = s.lastEvent →
      (step env f r (.event d2)).status = .watching s2 →
      (step env f (step env f r (.event d2)) (.event d3)).site ≠ .debounced ∧
      step env f (step env f r (.event d2)) (.event d3) =
        handle env f (step env f r (.event d2))
          ⟨s2.realPath, env.EventString d3.event, d3.now⟩ d3) := by
  refine ⟨?_, ?_, ?_, ?_, ?_⟩
  · intro d hd
    rw [step_debounced env f r s d hs hd]
    exact ⟨rfl, rfl⟩
  · intro d hnd
    rw [step_handled env f r s d hs hnd]
    refine ⟨rfl, fun s' h => handle_records env f r _ s' d h, fun hrel => ?_⟩
    unfold relevant at hrel
    unfold handle
    simp only [if_pos (show env.Clean d.event.Name ≠ s.realPath ∧
      env.Clean d.event.Name ≠ f.Path from by tauto)]
    exact ⟨rfl, rfl⟩
  · intro d2 d3 he2 he3 hlt hge
    have hd2 : debounce env s d2 := (debounce_iff env s d2).2 ⟨he2, hlt⟩
    have hnd3 : ¬ debounce env s d3 := by
      rw [debounce_iff]; omega
    rw [step_debounced env f r s d2 hs hd2]
    have h3 := step_handled env f (r.next .debounced s) s d3 rfl hnd3
    rw [h3]
    exact ⟨rfl, rfl, handle_site env f _ _ d3, rfl⟩
  · intro d1 d2 d3 curPath t hnd1 hrel1 hrel1' hrm hw hres hrl hn1 he2 hs2 he3 hs3
    have h1 := step_trigger env f r s d1 curPath hs hnd1 hrel1 hrm (Or.inr hw) hres
    rw [hrl] at h1
    have hd2 : debounce env ⟨env.Clean curPath, env.EventString d1.event, d1.now⟩ d2 := by
      rw [debounce_iff]
      refine ⟨by rw [he2], ?_⟩
      simp only [hs2, hn1]
      omega
    have hnd3 : ¬ debounce env ⟨env.Clean curPath, env.EventString d1.event, d1.now⟩ d3 := by
      rw [debounce_iff]
      simp only [hs3, hn1]
      omega
    rw [h1]
    have h2 := step_debounced env f
      (Run.next { r with resolved := curPath :: r.resolved, reloads := r.reloads + 1 }
        .reloaded ⟨env.Clean curPath, env.EventString d1.event, d1.now⟩)
      ⟨env.Clean curPath, env.EventString d1.event, d1.now⟩ d2 rfl hd2
    rw [h2]
    refine ⟨rfl, rfl, rfl, ?_, ?_⟩
    · rw [step_handled env f _ ⟨env.Clean curPath, env.EventString d1.event, d1.now⟩ d3
        rfl hnd3]
      exact handle_site env f _ _ d3
    · intro c3 hres3
      rw [step_trigger env f _ ⟨env.Clean curPath, env.EventString d1.event, d1.now⟩ d3 c3
        rfl hnd3 (by rw [he3]; exact hrel1') (by rw [he3]; exact hrm)
        (Or.inr (by rw [he3]; exact hw)) hres3]
      cases d3.reload <;> rfl
  · intro d2 d3 s2 hne2 he3 hs2
    have hnd2 : ¬ debounce env s d2 := fun h => hne2 h.1
    have hrec := handle_records env f r ⟨s.realPath, env.EventString d2.event, d2.now⟩ s2 d2
      (by rw [← step_handled env f r s d2 hs hnd2]; exact hs2)
    have hnd3 : ¬ debounce env s2 d3 := by
      intro h
      apply hne2
      rw [← he3, h.1, hrec.1]
    rw [step_handled env f _ s2 d3 hs2 hnd3]
    exact ⟨handle_site env f _ _ d3, rfl⟩

/-- C12 at concrete inputs: right after setup, writes to the watched file at 0 ms, 3 ms
and 6 ms give a suppressed second event and two calls of `reload`; and after a handled
write at 0 ms, a permission change at 1 ms keeps the same write at 2 ms from being
suppressed. -/
theorem debounce_anchor_witness :
    (step demoEnv demoFile
      (step demoEnv demoFile (Watch demoEnv demoFile demoSetup [])
        (.event (deliver writeEvent 0 "/cfg/app.yaml")))
      (.event (deliver writeEvent 3000000 "/cfg/app.yaml"))).site = .debounced ∧
    (step demoEnv demoFile
      (step demoEnv demoFile
        (step demoEnv demoFile (Watch demoEnv demoFile demoSetup [])
          (.event (deliver writeEvent 0 "/cfg/app.yaml")))
        (.event (deliver writeEvent 3000000 "/cfg/app.yaml")))
      (.event (deliver writeEvent 6000000 "/cfg/app.yaml"))).reloads =
        (Watch demoEnv demoFile demoSetup []).reloads + 2 ∧
    (step demoEnv demoFile
      (step demoEnv demoFile demoRun (.event (deliver chmodEvent 1000000 "/cfg/app.yaml")))
      (.event (deliver writeEvent 2000000 "/cfg/app.yaml"))).site ≠ .debounced :=
  have h4 := (debounce_anchor demoEnv demoFile (Watch demoEnv demoFile demoSetup [])
    ⟨"/cfg/app.yaml", "", 0⟩ (by decide)).2.2.2.1
    (deliver writeEvent 0 "/cfg/app.yaml") (deliver writeEvent 3000000 "/cfg/app.yaml")
    (deliver writeEvent 6000000 "/cfg/app.yaml") "/cfg/app.yaml" 0
    (by decide) (by decide) (by decide) (by decide) (by decide) rfl rfl rfl rfl
    (by decide) rfl (by decide)
  have h5 := (debounce_anchor demoEnv demoFile demoRun demoLoop (by decide)).2.2.2.2
    (deliver chmodEvent 1000000 "/cfg/app.yaml") (deliver writeEvent 2000000 "/cfg/app.yaml")
    ⟨"/cfg/app.yaml", demoString chmodEvent, 1000000⟩ (by decide) (by decide) (by decide)
  ⟨h4.2.1, h4.2.2.2.2 "/cfg/app.yaml" rfl, h5.1⟩

end Watcher
